import Mathlib

/-!
Shallow embedding of the Hidden Motif session engine
(`src/server/game.ts`, `src/server/server.ts`,
`src/server/services/geminiService.ts`) and proofs about the spec's claims.

Modelling conventions:
* JS objects become Lean structures; `null | T` becomes `Option T`.
* Methods of the `Game` class become pure functions `Game → ... → Game`.
  An operation that would throw a `TypeError` in JS (reading a property of
  `undefined`) returns `none` in an `Option Game`.
* `async` methods are split at their `await` points: the synchronous prefix
  is folded into the caller, and the continuation after the `await` becomes
  a separate `resolve…` function taking the awaited value as an argument.
* Randomness (dodger index, shuffles) and external-service results become
  explicit arguments, constrained in the step relation `Step`.
* The gallery `setInterval` timer is modelled by the `galleryTick` function;
  timer handles and the broadcast callback carry no session state and are
  omitted.
-/

namespace HiddenMotif

/-- `GameState` enum from `types.ts`. -/
inductive GameState where
  | JOIN
  | LOBBY
  | ROUND_STARTING
  | BRIEFING
  | PROMPTING
  | GENERATING
  | SCORING
  | GALLERY
  | REVEAL
  | GAME_OVER
deriving DecidableEq, Repr

/-- `PlayerRole` from `types.ts`: `'Artist' | 'Dodger'`. -/
inductive PlayerRole where
  | Artist
  | Dodger
deriving DecidableEq, Repr

/-- `Player` interface from `types.ts`. -/
structure Player where
  id : String
  name : String
  role : PlayerRole
  score : Nat
  promptSubmitted : Bool
deriving DecidableEq, Repr

/-- `Artwork` interface from `types.ts` (optional fields become `Option`). -/
structure Artwork where
  id : Nat
  playerId : String
  prompt : String
  imageUrl : Option String
  isDodger : Bool
  qualityScore : Option Nat := none
  originalityScore : Option Nat := none
deriving DecidableEq, Repr

/-- `Vote` interface from `types.ts`. -/
structure Vote where
  voterId : String
  artworkId : Nat
  isYes : Bool
deriving DecidableEq, Repr

/-- `RoundData` interface from `types.ts`. -/
structure RoundData where
  theme : String
  motif1 : String
  motif2 : String
deriving DecidableEq, Repr

/-- Modelled from the spec: `constants.cjs` is not among the provided
sources.  The spec fixes only that the room holds a configured maximum of
players ("game designed for exactly N players, e.g. 3-6"; its scenario uses
4 players).  The concrete value is irrelevant to every claim below. -/
def TOTAL_PLAYERS : Nat := 4

/-- Modelled from the spec: `constants.cjs` is not among the provided
sources.  The spec only names a round limit `ROUND_LIMIT`; theorems quantify
over the comparison with the current round, never over the value. -/
def TOTAL_ROUNDS : Nat := 3

/-- Modelled from the spec: `constants.cjs` is not among the provided
sources.  The spec suggests "e.g. 60 ticks of one time unit". -/
def GALLERY_TIMER_SECONDS : Int := 60

/-- The `rankings` argument of `calculateScores` in `game.ts`
(`{ qualityRanking: number[], originalityRanking: number[] }`). -/
structure Rankings where
  qualityRanking : List Nat
  originalityRanking : List Nat
deriving DecidableEq, Repr

/-- The mutable fields of the `Game` class in `game.ts`.  The
`galleryTimer : NodeJS.Timeout | null` handle and the `broadcastUpdate`
callback hold no session data and are omitted. -/
structure Game where
  roomId : String
  players : List Player
  state : GameState
  currentRound : Nat
  roundData : Option RoundData
  artworks : List Artwork
  votes : List Vote
  galleryIndex : Nat
  galleryTime : Int
  dodgerId : Option String
  readyPlayers : List String
deriving DecidableEq, Repr

/-- Field initialisers of the `Game` class constructor. -/
def Game.init (roomId : String) : Game :=
  { roomId := roomId
    players := []
    state := GameState.LOBBY
    currentRound := 0
    roundData := none
    artworks := []
    votes := []
    galleryIndex := 0
    galleryTime := GALLERY_TIMER_SECONDS
    dodgerId := none
    readyPlayers := [] }

/-- `addPlayer` from `game.ts`. -/
def Game.addPlayer (g : Game) (id name : String) : Game :=
  if g.players.length ≥ TOTAL_PLAYERS then g
  else { g with players := g.players ++ [⟨id, name, PlayerRole.Artist, 0, false⟩] }

/-- `removePlayer` from `game.ts` (the timer cleanup has no session-state
effect in the model). -/
def Game.removePlayer (g : Game) (id : String) : Game :=
  { g with players := g.players.filter (fun p => p.id ≠ id) }

/-- `isFull` from `game.ts`. -/
def Game.isFull (g : Game) : Bool :=
  g.players.length ≥ TOTAL_PLAYERS

/-- `startGame` from `game.ts`, together with the synchronous prefix of the
`startNewRound()` call it makes (which sets the state to `ROUND_STARTING`
before its first `await`). -/
def Game.startGame (g : Game) : Game :=
  if g.state = GameState.LOBBY then
    { g with
      currentRound := 1
      players := g.players.map (fun p => { p with score := 0 })
      state := GameState.ROUND_STARTING }
  else g

/-- `resetGame` from `game.ts`. -/
def Game.resetGame (g : Game) : Game :=
  { g with
    state := GameState.LOBBY
    currentRound := 0
    players := g.players.map (fun p => { p with score := 0 }) }

/-- Replace the first element whose `id` matches, mirroring a JS
`players.find(...)` followed by mutation of the found object. -/
def updateFirst (ps : List Player) (pid : String) (f : Player → Player) : List Player :=
  match ps with
  | [] => []
  | p :: rest => if p.id == pid then f p :: rest else p :: updateFirst rest pid f

/-- Continuation of `startNewRound` in `game.ts` after
`await gemini.generateRoundData()` resolves with `rd`.  The random
`dodgerIndex` is an explicit argument; `none` models the `TypeError` the JS
code throws when `players[dodgerIndex]` is `undefined`. -/
def Game.resolveRoundStart (g : Game) (rd : RoundData) (dodgerIndex : Nat) : Option Game :=
  match (g.players.map
      (fun p => { p with role := PlayerRole.Artist, promptSubmitted := false })).get?
      dodgerIndex with
  | none => none
  | some d =>
    some { g with
      roundData := some rd
      artworks := []
      votes := []
      galleryIndex := 0
      readyPlayers := []
      players := (g.players.map
        (fun p => { p with role := PlayerRole.Artist, promptSubmitted := false })).set
          dodgerIndex { d with role := PlayerRole.Dodger }
      dodgerId := some d.id
      state := GameState.BRIEFING }

/-- `readyPlayers.add(playerId)` on the JS `Set` in `game.ts`: insert
without duplication. -/
def addReady (ready : List String) (playerId : String) : List String :=
  if playerId ∈ ready then ready else playerId :: ready

/-- `handlePlayerReady` from `game.ts`.  The `Set` size is the length of
the duplicate-free list. -/
def Game.handlePlayerReady (g : Game) (playerId : String) : Game :=
  if (addReady g.readyPlayers playerId).length = g.players.length then
    { g with readyPlayers := addReady g.readyPlayers playerId, state := GameState.PROMPTING }
  else
    { g with readyPlayers := addReady g.readyPlayers playerId }

/-- `handlePromptSubmission` from `game.ts`, together with the synchronous
prefix of `generateAllArtworks()` (which sets the state to `GENERATING`
before its first `await`). -/
def Game.handlePromptSubmission (g : Game) (playerId prompt : String) : Game :=
  match g.players.find? (fun p => p.id == playerId) with
  | none => g
  | some player =>
    if player.promptSubmitted then g
    else
      let isDodger := player.role == PlayerRole.Dodger
      let artworkId := g.artworks.length + 1
      let g' : Game :=
        { g with
          players := updateFirst g.players playerId (fun p => { p with promptSubmitted := true })
          artworks := g.artworks ++
            [{ id := artworkId, playerId := playerId, prompt := prompt,
               imageUrl := none, isDodger := isDodger }] }
      if g'.players.all (fun p => p.promptSubmitted) then
        { g' with state := GameState.GENERATING }
      else g'

/-- Continuation of `generateAllArtworks` in `game.ts` after the batch of
`generateImage` calls settles and the shuffle is drawn: `arts` is the
already-shuffled artwork list (constrained in `Step`), and
`startGalleryTimer()` resets the countdown. -/
def Game.resolveGeneration (g : Game) (arts : List Artwork) : Game :=
  { g with
    artworks := arts
    state := GameState.GALLERY
    galleryTime := GALLERY_TIMER_SECONDS }

/-- The vote-synthesis loop at the top of `nextGalleryItem` in `game.ts`:
every player without a vote on the current artwork gets a default `isYes :=
false` vote pushed (the JS `forEach` re-reads the grown `votes` array, hence
the `foldl`). -/
def synthVotes (aid : Nat) (ps : List Player) (vs : List Vote) : List Vote :=
  ps.foldl
    (fun acc p =>
      if acc.any (fun v => v.voterId == p.id && v.artworkId == aid) then acc
      else acc ++ [⟨p.id, aid, false⟩])
    vs

/-- `nextGalleryItem` from `game.ts`, including the synchronous prefix of
`runArtEvaluation()` on the last artwork (state := `SCORING`).  `none`
models the `TypeError` thrown when `artworks[galleryIndex]` is `undefined`. -/
def Game.nextGalleryItem (g : Game) : Option Game :=
  match g.artworks.get? g.galleryIndex with
  | none => none
  | some art =>
    let votes := synthVotes art.id g.players g.votes
    if g.galleryIndex < g.artworks.length - 1 then
      some { g with
        votes := votes
        galleryIndex := g.galleryIndex + 1
        galleryTime := GALLERY_TIMER_SECONDS }
    else
      some { g with votes := votes, state := GameState.SCORING }

/-- `handleVote` from `game.ts`.  `none` models the `TypeError` thrown when
`artworks[galleryIndex]` is `undefined`. -/
def Game.handleVote (g : Game) (voterId : String) (isYes : Bool) : Option Game :=
  match g.artworks.get? g.galleryIndex with
  | none => none
  | some art =>
    if g.votes.any (fun v => v.voterId == voterId && v.artworkId == art.id) then some g
    else
      let g' : Game := { g with votes := g.votes ++ [⟨voterId, art.id, isYes⟩] }
      if g'.players.all (fun p =>
          g'.votes.any (fun v => v.voterId == p.id && v.artworkId == art.id)) then
        g'.nextGalleryItem
      else some g'

/-- One tick of the `setInterval` callback installed by `startGalleryTimer`
in `game.ts`: decrement the countdown and force-advance at zero. -/
def Game.galleryTick (g : Game) : Option Game :=
  let g' : Game := { g with galleryTime := g.galleryTime - 1 }
  if g'.galleryTime ≤ 0 then g'.nextGalleryItem else some g'

/-- The `[3, 2, 1]` bonus table (`pointsByRank`) in `calculateScores`. -/
def pointsByRank : List Nat := [3, 2, 1]

/-- The `scoreMap` of `calculateScores` as a function from artwork id to the
`{ quality, originality }` record, `none` for ids absent from the map. -/
def initScoreMap (arts : List Artwork) : Nat → Option (Nat × Nat) :=
  arts.foldl (fun m a => fun k => if k = a.id then some (0, 0) else m k) (fun _ => none)

/-- The body `currentScore.quality = pointsByRank[index]` of the quality
pass of `calculateScores`: when the map holds an entry for `aid`, overwrite
its `quality` component. -/
def setQuality (m : Nat → Option (Nat × Nat)) (aid pts : Nat) : Nat → Option (Nat × Nat) :=
  match m aid with
  | some qo => fun k => if k = aid then some (pts, qo.2) else m k
  | none => m

/-- The body `currentScore.originality = pointsByRank[index]` of the
originality pass of `calculateScores`. -/
def setOriginality (m : Nat → Option (Nat × Nat)) (aid pts : Nat) : Nat → Option (Nat × Nat) :=
  match m aid with
  | some qo => fun k => if k = aid then some (qo.1, pts) else m k
  | none => m

/-- The `qualityRanking.forEach((artworkId, index) => ...)` pass of
`calculateScores`: for each ranked id with index below
`pointsByRank.length`, overwrite the `quality` component of its map entry
(when present) with `pointsByRank[index]`. -/
def applyQualityRanking (m : Nat → Option (Nat × Nat)) :
    List Nat → Nat → (Nat → Option (Nat × Nat))
  | [], _ => m
  | aid :: rest, idx =>
    applyQualityRanking
      (if idx < pointsByRank.length then setQuality m aid (pointsByRank.getD idx 0) else m)
      rest (idx + 1)

/-- The `originalityRanking.forEach` pass of `calculateScores`, overwriting
the `originality` component. -/
def applyOriginalityRanking (m : Nat → Option (Nat × Nat)) :
    List Nat → Nat → (Nat → Option (Nat × Nat))
  | [], _ => m
  | aid :: rest, idx =>
    applyOriginalityRanking
      (if idx < pointsByRank.length then setOriginality m aid (pointsByRank.getD idx 0) else m)
      rest (idx + 1)

/-- Position of an id in a ranking list (the `index` of the JS `forEach`),
used to state the 3/2/1 rank-bonus scheme. -/
def rankIndex : List Nat → Nat → Option Nat
  | [], _ => none
  | x :: l, aid => if x = aid then some 0 else (rankIndex l aid).map (· + 1)

/-- The deception-point loop of `calculateScores` in `game.ts`
(`votes.forEach` incrementing `dodgerPoints` for each approving vote whose
target artwork exists and is not the dodger's). -/
def dodgerPointsCalc (g : Game) : Nat :=
  g.votes.foldl
    (fun n v =>
      match g.artworks.find? (fun a => a.id == v.artworkId) with
      | some votedArtwork => if v.isYes && !votedArtwork.isDodger then n + 1 else n
      | none => n)
    0

/-- `calculateScores` from `game.ts`. -/
def Game.calculateScores (g : Game) (rankings : Rankings) : Game :=
  match g.artworks.find? (fun a => a.isDodger) with
  | none => g
  | some dodgerArtwork =>
    let dodgerPoints := dodgerPointsCalc g
    let m0 := initScoreMap g.artworks
    let m1 := applyQualityRanking m0 rankings.qualityRanking 0
    let m2 := applyOriginalityRanking m1 rankings.originalityRanking 0
    let players := g.players.map (fun p =>
      let correctVote :=
        (g.votes.find? (fun v => v.voterId == p.id && v.artworkId == dodgerArtwork.id)).map
          Vote.isYes
      let s1 := if correctVote = some true then p.score + 1 else p.score
      let s2 := if p.role == PlayerRole.Dodger then s1 + dodgerPoints else s1
      let s3 :=
        match g.artworks.find? (fun a => a.playerId == p.id) with
        | some art =>
          match m2 art.id with
          | some qo => s2 + qo.1 + qo.2
          | none => s2
        | none => s2
      { p with score := s3 })
    let artworks := g.artworks.map (fun a =>
      match m2 a.id with
      | some qo => { a with qualityScore := some qo.1, originalityScore := some qo.2 }
      | none => { a with qualityScore := some 0, originalityScore := some 0 })
    { g with players := players, artworks := artworks }

/-- Continuation of `runArtEvaluation` in `game.ts` after
`await gemini.evaluateArtworks(...)` resolves with `rankings`. -/
def Game.resolveEvaluation (g : Game) (rankings : Rankings) : Game :=
  { g.calculateScores rankings with state := GameState.REVEAL }

/-- `nextRound` from `game.ts`, together with the synchronous prefix of the
`startNewRound()` call on the non-final branch. -/
def Game.nextRound (g : Game) : Game :=
  if g.state = GameState.REVEAL then
    if g.currentRound < TOTAL_ROUNDS then
      { g with currentRound := g.currentRound + 1, state := GameState.ROUND_STARTING }
    else
      { g with state := GameState.GAME_OVER }
  else g

/-- `ServerGameState` interface from `types.ts` (server-populated fields). -/
structure ServerGameState where
  state : GameState
  players : List Player
  currentRound : Nat
  roundData : Option RoundData
  artworks : List Artwork
  votes : List Vote
  galleryIndex : Nat
  galleryTime : Int
  roundPoints : Nat
  dodgerId : Option String
deriving DecidableEq, Repr

/-- `getSerializableState` from `game.ts`.  In the `roundPoints` filter the
JS expression `!artworks.find(a => a.id === v.artworkId)?.isDodger` is
`true` both when the found artwork is not the dodger's and when no artwork
is found (`!undefined` is `true`). -/
def Game.getSerializableState (g : Game) : ServerGameState :=
  { state := g.state
    players := g.players
    currentRound := g.currentRound
    roundData := g.roundData
    artworks := g.artworks
    votes := g.votes
    galleryIndex := g.galleryIndex
    galleryTime := g.galleryTime
    roundPoints :=
      (g.votes.filter (fun v =>
        v.isYes &&
          !(((g.artworks.find? (fun a => a.id == v.artworkId)).map Artwork.isDodger).getD false))).length
    dodgerId := g.dodgerId }

/-- The `socket.on('nextRound')` handler in `server.ts`: it forwards to
`Game.nextRound` for any socket in the room, with no host check (unlike the
`startGame` and `playAgain` handlers). -/
def onNextRound (g : Game) (_socketId : String) : Game :=
  g.nextRound

/-! ### Content-generation service (`geminiService.ts`)

The external API call (including the `withRetry` wrapper, whose resolved
outcome is all the core ever sees) is modelled as an `Except` argument; the
service functions below are the `try`/`catch` bodies around it. -/

/-- The `image` payload of one generated image (`firstImage.image`). -/
structure ImageData where
  imageBytes : Option String
deriving DecidableEq, Repr

/-- One entry of `response.generatedImages`. -/
structure GeneratedImage where
  image : Option ImageData
deriving DecidableEq, Repr

/-- The response of `ai.models.generateImages`. -/
structure GenerateImagesResponse where
  generatedImages : Option (List GeneratedImage)
deriving DecidableEq, Repr

/-- `generateImage` from `geminiService.ts`.  The `catch` branch returns
`null`; on success the first image's bytes are returned when present and
non-empty (JS truthiness of the `imageBytes` string), otherwise `null`. -/
def generateImage (apiResult : Except String GenerateImagesResponse) : Option String :=
  match apiResult with
  | Except.error _ => none
  | Except.ok response =>
    match response.generatedImages with
    | some (firstImage :: _) =>
      match firstImage.image with
      | some img =>
        match img.imageBytes with
        | some bytes => if bytes.isEmpty then none else some bytes
        | none => none
      | none => none
    | _ => none

/-- The fixed fallback triple in the `catch` branch of `generateRoundData`
in `geminiService.ts`. -/
def fallbackRoundData : RoundData :=
  { theme := "A Cyberpunk Megacity During a Rainstorm"
    motif1 := "Dragon"
    motif2 := "Compass" }

/-- `generateRoundData` from `geminiService.ts`: the parsed response on
success, the fixed fallback triple on any failure. -/
def generateRoundData (apiResult : Except String RoundData) : RoundData :=
  match apiResult with
  | Except.ok rd => rd
  | Except.error _ => fallbackRoundData

/-! ### Concrete sessions used in witnesses and counterexamples -/

/-- Witness for `prompt_submission_idempotent`: a concrete session in which
player "A" has already submitted, where a repeat submission is a no-op. -/
def submittedGame : Game :=
  { Game.init "SUBM" with
    state := GameState.PROMPTING
    players := [⟨"A", "Alice", PlayerRole.Dodger, 0, true⟩,
                ⟨"B", "Bob", PlayerRole.Artist, 0, false⟩]
    artworks := [⟨1, "A", "a dragon compass", none, true, none, none⟩] }

/-- Counterexample to C1 as stated: a ready signal received while the
session is in `LOBBY` (not `BRIEFING`, the phase the action belongs to) is
not a no-op — it mutates the ready set and, the ready count matching the
roster size, even flips the phase to `PROMPTING`. -/
def lobbyReadyGame : Game :=
  { Game.init "RACE" with players := [⟨"A", "Alice", PlayerRole.Artist, 0, false⟩] }

/-- Counterexample to C5 as stated: with three players A, B, C in
`BRIEFING`, A signals ready, A disconnects, then B signals ready.  The
ready-set cardinality (2) now equals the roster size (2), so the barrier
opens — yet current player C never signalled readiness. -/
def staleReadyGame : Game :=
  { Game.init "STAL" with
    state := GameState.BRIEFING
    players := [⟨"A", "Alice", PlayerRole.Artist, 0, false⟩,
                ⟨"B", "Bob", PlayerRole.Artist, 0, false⟩,
                ⟨"C", "Cara", PlayerRole.Artist, 0, false⟩] }

/-- Witness for `barrier_opening_covers_roster`: a single-player session in
`BRIEFING` whose sole player signals ready. -/
def soloBriefingGame : Game :=
  { Game.init "SOLO" with
    state := GameState.BRIEFING
    players := [⟨"A", "Alice", PlayerRole.Dodger, 0, false⟩] }

/-- Counterexample to C6 as stated: `server.ts` registers the `nextRound`
socket handler without the host check that guards `startGame` and
`playAgain`, so a non-host invocation in `REVEAL` does change the session.
Here the host is "A" (first roster entry) but caller "B" advances the
session to `GAME_OVER`. -/
def revealEndGame : Game :=
  { Game.init "REVL" with
    state := GameState.REVEAL
    currentRound := TOTAL_ROUNDS
    players := [⟨"A", "Alice", PlayerRole.Artist, 3, true⟩,
                ⟨"B", "Bob", PlayerRole.Dodger, 5, true⟩] }

/-- Witness for `advance_round_phase_behaviour`: a mid-game `Reveal`
session advanced by an arbitrary caller. -/
def revealMidGame : Game :=
  { Game.init "RVW" with
    state := GameState.REVEAL
    currentRound := 1
    players := [⟨"A", "Alice", PlayerRole.Artist, 0, true⟩] }

/-- Witness for `scoring_pass_formula` on a concrete completed two-player
round. -/
def fullRound2Game : Game :=
  { Game.init "BND" with
    state := GameState.SCORING
    currentRound := 1
    roundData := some fallbackRoundData
    dodgerId := some "A"
    galleryIndex := 1
    players := [⟨"A", "Alice", PlayerRole.Dodger, 0, true⟩,
                ⟨"B", "Bob", PlayerRole.Artist, 0, true⟩]
    artworks := [⟨1, "A", "p1", none, true, none, none⟩,
                 ⟨2, "B", "p2", none, false, none, none⟩]
    votes := [⟨"A", 1, true⟩, ⟨"B", 1, true⟩, ⟨"A", 2, true⟩, ⟨"B", 2, true⟩] }

/-- A session state with an approving vote whose target artwork id (99)
does not exist; `getSerializableState` counts it in `roundPoints`, the
scoring pass's deception loop does not. -/
def danglingVoteGame : Game :=
  { Game.init "DNGL" with votes := [⟨"A", 99, true⟩] }

/-! ### A complete small run, used by several witnesses -/

/-- Two players join. -/
def gDemo2 : Game := ((Game.init "DEMO").addPlayer "A" "Alice").addPlayer "B" "Bob"

/-- The host starts the game. -/
def gDemo3 : Game := gDemo2.startGame

/-- The round-content fetch resolves (with the fallback triple) and the
dodger index 0 (player "A") is drawn. -/
def gDemo4 : Game := (gDemo3.resolveRoundStart fallbackRoundData 0).getD gDemo3

/-- Both players signal readiness. -/
def gDemo6 : Game := (gDemo4.handlePlayerReady "A").handlePlayerReady "B"

/-- Both players submit their instructions. -/
def gDemo8 : Game :=
  (gDemo6.handlePromptSubmission "A" "a dragon").handlePromptSubmission "B" "a cat"

/-- The render batch settles (one success, one failure) with the identity
shuffle. -/
def gDemo9 : Game :=
  gDemo8.resolveGeneration
    (List.zipWith (fun a i => { a with imageUrl := i }) gDemo8.artworks [some "img1", none])

/-- Player "A" approves the first gallery artwork. -/
def gDemo10 : Game := (gDemo9.handleVote "A" true).getD gDemo9

/-- The artwork on display in `gDemo10`. -/
def gDemo10Art : Artwork :=
  (gDemo10.artworks.get? gDemo10.galleryIndex).getD ⟨0, "", "", none, false, none, none⟩

/-- `gDemo10` after the gallery advances past the first artwork. -/
def gDemo11 : Game := gDemo10.nextGalleryItem.getD gDemo10

/-- `gDemo10` after "B" casts the final vote on the displayed artwork,
making the tally unanimous and advancing the gallery inside `handleVote`. -/
def gDemo11v : Game := (gDemo10.handleVote "B" true).getD gDemo10

/-! ### The step relation of the session

One constructor per externally triggerable mutation of a `Game`.  The
synchronous prefix of each `async` method is folded into its trigger; the
continuation after each `await` is a separate step, guarded by the phase
the code is necessarily in when the awaited promise resolves.  Random
choices (dodger index, shuffle) and external-service results are
universally quantified arguments.  `addPlayer` is only invoked by the
transport layer with a fresh socket id, so the step carries that
freshness. -/

inductive Step : Game → Game → Prop where
  | addPlayer (g : Game) (id name : String)
      (hfresh : id ∉ g.players.map Player.id) :
      Step g (g.addPlayer id name)
  | removePlayer (g : Game) (id : String) : Step g (g.removePlayer id)
  | startGame (g : Game) : Step g g.startGame
  | resetGame (g : Game) : Step g g.resetGame
  | resolveRoundStart (g g' : Game) (rd : RoundData) (i : Nat)
      (hstate : g.state = GameState.ROUND_STARTING)
      (h : g.resolveRoundStart rd i = some g') : Step g g'
  | playerReady (g : Game) (id : String) : Step g (g.handlePlayerReady id)
  | submitPrompt (g : Game) (id prompt : String) :
      Step g (g.handlePromptSubmission id prompt)
  | resolveGeneration (g : Game) (imgs : List (Option String)) (arts : List Artwork)
      (hstate : g.state = GameState.GENERATING)
      (hlen : imgs.length = g.artworks.length)
      (hperm : arts.Perm
        (List.zipWith (fun a i => { a with imageUrl := i }) g.artworks imgs)) :
      Step g (g.resolveGeneration arts)
  | castVote (g g' : Game) (id : String) (isYes : Bool)
      (h : g.handleVote id isYes = some g') : Step g g'
  | galleryTick (g g' : Game) (h : g.galleryTick = some g') : Step g g'
  | resolveEvaluation (g : Game) (rk : Rankings)
      (hstate : g.state = GameState.SCORING)
      (hrd : g.roundData.isSome = true) :
      Step g (g.resolveEvaluation rk)
  | nextRound (g : Game) : Step g g.nextRound

/-- Session states reachable from a freshly created room. -/
inductive Reach : Game → Prop where
  | init (roomId : String) : Reach (Game.init roomId)
  | step (g g' : Game) (hg : Reach g) (hs : Step g g') : Reach g'

/-- The inductive invariant of reachable session states. -/
structure Inv (g : Game) : Prop where
  idsNodup : (g.players.map Player.id).Nodup
  votesNodup : (g.votes.map (fun v => (v.voterId, v.artworkId))).Nodup
  votesArt : ∀ v ∈ g.votes, ∃ a ∈ g.artworks, a.id = v.artworkId
  dodgerPlayers : g.players.countP (fun p => p.role == PlayerRole.Dodger) ≤ 1
  dodgerRoleId : ∀ p ∈ g.players, p.role = PlayerRole.Dodger → g.dodgerId = some p.id
  dodgerArts : g.artworks.countP (fun a => a.isDodger) ≤ 1
  dodgerArtId : ∀ a ∈ g.artworks, a.isDodger = true → g.dodgerId = some a.playerId
  dodgerSubmitted : (∃ a ∈ g.artworks, a.isDodger = true) →
    ∀ p ∈ g.players, p.role = PlayerRole.Dodger → p.promptSubmitted = true

/-! ### Claim theorems: error handling of the service boundary (C8) -/

/-- C8: failures of the content-generation service never raise past the
core boundary — `generateImage` always returns either a content handle or
the absent sentinel `none` (in particular `none` on any service error), and
a failed round-content fetch yields the fixed built-in fallback triple
(theme "A Cyberpunk Megacity During a Rainstorm", motifs "Dragon" and
"Compass") instead of an error. -/
theorem render_failure_is_absent_and_roundcontent_falls_back :
    (∀ r : Except String GenerateImagesResponse,
        (∃ s, generateImage r = some s) ∨ generateImage r = none)
    ∧ (∀ e : String, generateImage (Except.error e) = none)
    ∧ (∀ e : String, generateRoundData (Except.error e) = fallbackRoundData)
    ∧ fallbackRoundData.theme = "A Cyberpunk Megacity During a Rainstorm"
    ∧ fallbackRoundData.motif1 = "Dragon"
    ∧ fallbackRoundData.motif2 = "Compass" := by
  refine ⟨fun r => ?_, fun _ => rfl, fun _ => rfl, rfl, rfl, rfl⟩
  cases h : generateImage r with
  | none => exact Or.inr rfl
  | some s => exact Or.inl ⟨s, rfl⟩

/-! ### Claim theorems: idempotent instruction submission (C9) -/

theorem find?_updateFirst (ps : List Player) (pid : String) (f : Player → Player)
    (hid : ∀ p, (f p).id = p.id) (p : Player)
    (h : ps.find? (fun q => q.id == pid) = some p) :
    (updateFirst ps pid f).find? (fun q => q.id == pid) = some (f p) := by
  induction ps with
  | nil => simp at h
  | cons a rest ih =>
    cases ha : a.id == pid with
    | true =>
      have hp : a = p := by
        have h' := h
        simp only [List.find?_cons, ha] at h'
        exact Option.some.inj h'
      subst hp
      have hfa : ((f a).id == pid) = true := by rw [hid a]; exact ha
      simp only [updateFirst, ha, if_true, List.find?_cons, hfa]
    | false =>
      have h' : rest.find? (fun q => q.id == pid) = some p := by
        simpa only [List.find?_cons, ha] using h
      have hrec := ih h'
      simp only [updateFirst, ha, Bool.false_eq_true, if_false, List.find?_cons]
      simpa only [ha] using hrec

theorem handlePromptSubmission_noop (g : Game) (pid s : String) (p : Player)
    (hfind : g.players.find? (fun q => q.id == pid) = some p)
    (hsub : p.promptSubmitted = true) :
    g.handlePromptSubmission pid s = g := by
  simp only [Game.handlePromptSubmission, hfind, hsub, if_true]

theorem handlePromptSubmission_players (g : Game) (pid s : String) (p : Player)
    (hfind : g.players.find? (fun q => q.id == pid) = some p)
    (hsub : p.promptSubmitted = false) :
    (g.handlePromptSubmission pid s).players =
      updateFirst g.players pid (fun q => { q with promptSubmitted := true }) := by
  simp only [Game.handlePromptSubmission, hfind, hsub, Bool.false_eq_true, if_false]
  split <;> rfl

/-- C9: submitting an instruction is idempotent per player per round: a
call for a player whose submission flag is already set leaves the whole
session unchanged, and consequently submitting twice for the same player
equals submitting once. -/
theorem prompt_submission_idempotent :
    (∀ (g : Game) (pid s : String) (p : Player),
        g.players.find? (fun q => q.id == pid) = some p →
        p.promptSubmitted = true →
        g.handlePromptSubmission pid s = g)
    ∧ (∀ (g : Game) (pid s t : String),
        (g.handlePromptSubmission pid s).handlePromptSubmission pid t =
          g.handlePromptSubmission pid s) := by
  refine ⟨handlePromptSubmission_noop, ?_⟩
  intro g pid s t
  cases hfind : g.players.find? (fun q => q.id == pid) with
  | none =>
    have h1 : g.handlePromptSubmission pid s = g := by
      simp only [Game.handlePromptSubmission, hfind]
    rw [h1]
    simp only [Game.handlePromptSubmission, hfind]
  | some p =>
    cases hsub : p.promptSubmitted with
    | true =>
      have h1 := handlePromptSubmission_noop g pid s p hfind hsub
      rw [h1]
      exact handlePromptSubmission_noop g pid t p hfind hsub
    | false =>
      have hfind' :
          ((g.handlePromptSubmission pid s).players).find? (fun q => q.id == pid) =
            some { p with promptSubmitted := true } := by
        rw [handlePromptSubmission_players g pid s p hfind hsub]
        exact find?_updateFirst g.players pid
          (fun q => { q with promptSubmitted := true }) (fun _ => rfl) p hfind
      exact handlePromptSubmission_noop _ pid t _ hfind' rfl

theorem prompt_submission_idempotent_witness :
    submittedGame.handlePromptSubmission "A" "again" = submittedGame :=
  prompt_submission_idempotent.1 submittedGame "A" "again"
    ⟨"A", "Alice", PlayerRole.Dodger, 0, true⟩ (by decide) rfl

/-! ### Claim theorems: phase gating of actions (C1, corrected) -/

theorem ready_outside_phase_mutates_state :
    lobbyReadyGame.state = GameState.LOBBY ∧
    (lobbyReadyGame.handlePlayerReady "A").state = GameState.PROMPTING ∧
    (lobbyReadyGame.handlePlayerReady "A").readyPlayers ≠ lobbyReadyGame.readyPlayers := by
  decide

/-- C1 (amended): only the `start` and `advance-round` actions are
phase-gated silent no-ops (`startGame` outside `LOBBY` and `nextRound`
outside `REVEAL` leave the session unchanged); the ready, submit, vote and
restart actions carry no phase guard. -/
theorem phase_gated_actions_are_noops :
    (∀ g : Game, g.state ≠ GameState.LOBBY → g.startGame = g)
    ∧ (∀ g : Game, g.state ≠ GameState.REVEAL → g.nextRound = g) := by
  constructor
  · intro g h
    unfold Game.startGame
    rw [if_neg h]
  · intro g h
    unfold Game.nextRound
    rw [if_neg h]

/-- Witness for `phase_gated_actions_are_noops` at concrete sessions. -/
theorem phase_gated_actions_are_noops_witness :
    ({ Game.init "W" with state := GameState.REVEAL } : Game).startGame =
      { Game.init "W" with state := GameState.REVEAL } ∧
    (Game.init "W").nextRound = Game.init "W" :=
  ⟨phase_gated_actions_are_noops.1 _ (by decide),
   phase_gated_actions_are_noops.2 _ (by decide)⟩

/-! ### Claim theorems: the readiness barrier (C5, corrected) -/

theorem stale_ready_entry_opens_barrier_early :
    (((staleReadyGame.handlePlayerReady "A").removePlayer "A").handlePlayerReady "B").state
        = GameState.PROMPTING ∧
    "C" ∈ (((staleReadyGame.handlePlayerReady "A").removePlayer "A").handlePlayerReady
        "B").players.map Player.id ∧
    "C" ∉ (((staleReadyGame.handlePlayerReady "A").removePlayer "A").handlePlayerReady
        "B").readyPlayers := by
  decide

/-- C5 (amended): the barrier opens exactly when the ready-set cardinality
equals the current player count, and that opening implies every current
player is in the ready set provided the ready set holds no stale entries —
i.e. every recorded id belongs to the current roster (departed players'
signals are never pruned, which is what the counterexample exploits). -/
theorem barrier_opening_covers_roster (g : Game) (pid : String)
    (hsub : ∀ x ∈ g.readyPlayers, x ∈ g.players.map Player.id)
    (hpid : pid ∈ g.players.map Player.id)
    (hnd : g.readyPlayers.Nodup)
    (hlen : (g.handlePlayerReady pid).readyPlayers.length = g.players.length) :
    (g.handlePlayerReady pid).state = GameState.PROMPTING ∧
    ∀ p ∈ g.players, p.id ∈ (g.handlePlayerReady pid).readyPlayers := by
  have hready : (g.handlePlayerReady pid).readyPlayers = addReady g.readyPlayers pid := by
    unfold Game.handlePlayerReady
    split <;> rfl
  have hrlen : (addReady g.readyPlayers pid).length = g.players.length := by
    rw [← hready]; exact hlen
  have hstate : (g.handlePlayerReady pid).state = GameState.PROMPTING := by
    unfold Game.handlePlayerReady
    rw [if_pos hrlen]
  refine ⟨hstate, ?_⟩
  have hrnd : (addReady g.readyPlayers pid).Nodup := by
    unfold addReady
    split
    · exact hnd
    · exact List.nodup_cons.mpr ⟨by assumption, hnd⟩
  have hrsub : addReady g.readyPlayers pid ⊆ g.players.map Player.id := by
    unfold addReady
    split
    · intro x hx; exact hsub x hx
    · intro x hx
      rcases List.mem_cons.mp hx with h | h
      · rw [h]; exact hpid
      · exact hsub x h
  have hperm : (addReady g.readyPlayers pid).Perm (g.players.map Player.id) := by
    refine (List.subperm_of_subset hrnd hrsub).perm_of_length_le ?_
    rw [hrlen, List.length_map]
  intro p hp
  rw [hready]
  exact hperm.mem_iff.mpr (List.mem_map.mpr ⟨p, hp, rfl⟩)

theorem barrier_opening_covers_roster_witness :
    (soloBriefingGame.handlePlayerReady "A").state = GameState.PROMPTING ∧
    ∀ p ∈ soloBriefingGame.players, p.id ∈ (soloBriefingGame.handlePlayerReady "A").readyPlayers :=
  barrier_opening_covers_roster soloBriefingGame "A" (by decide) (by decide) (by decide)
    (by decide)

/-! ### Claim theorems: the advance-round action (C6, corrected) -/

theorem nonhost_advance_changes_state :
    (revealEndGame.players.map Player.id).head? = some "A" ∧
    revealEndGame.state = GameState.REVEAL ∧
    (onNextRound revealEndGame "B").state = GameState.GAME_OVER := by
  decide

/-- C6 (amended): the advance-round action is valid only in the `Reveal`
phase but is not host-gated — the dispatcher forwards it for any caller:
in `Reveal` below the round limit it increments the round counter and
re-enters `RoundStarting`; in `Reveal` at (or beyond) the limit it
transitions to `GameOver`; in any other phase it changes nothing. -/
theorem advance_round_phase_behaviour (g : Game) (callerId : String) :
    (g.state = GameState.REVEAL → g.currentRound < TOTAL_ROUNDS →
      onNextRound g callerId =
        { g with currentRound := g.currentRound + 1, state := GameState.ROUND_STARTING })
    ∧ (g.state = GameState.REVEAL → ¬ g.currentRound < TOTAL_ROUNDS →
      onNextRound g callerId = { g with state := GameState.GAME_OVER })
    ∧ (g.state ≠ GameState.REVEAL → onNextRound g callerId = g) := by
  refine ⟨?_, ?_, ?_⟩
  · intro hs hr
    unfold onNextRound Game.nextRound
    rw [if_pos hs, if_pos hr]
  · intro hs hr
    unfold onNextRound Game.nextRound
    rw [if_pos hs, if_neg hr]
  · intro hs
    unfold onNextRound Game.nextRound
    rw [if_neg hs]

theorem advance_round_phase_behaviour_witness :
    onNextRound revealMidGame "B" =
      { revealMidGame with currentRound := 2, state := GameState.ROUND_STARTING } :=
  (advance_round_phase_behaviour revealMidGame "B").1 (by decide) (by decide)

/-! ### Lemmas on the score map of `calculateScores` -/

theorem setQuality_apply_ne (m : Nat → Option (Nat × Nat)) (aid pts k : Nat) (h : k ≠ aid) :
    setQuality m aid pts k = m k := by
  unfold setQuality
  cases m aid with
  | none => rfl
  | some qo => simp [h]

theorem setOriginality_apply_ne (m : Nat → Option (Nat × Nat)) (aid pts k : Nat) (h : k ≠ aid) :
    setOriginality m aid pts k = m k := by
  unfold setOriginality
  cases m aid with
  | none => rfl
  | some qo => simp [h]

theorem setQuality_apply_self (m : Nat → Option (Nat × Nat)) (aid pts q o : Nat)
    (h : m aid = some (q, o)) : setQuality m aid pts aid = some (pts, o) := by
  unfold setQuality
  rw [h]
  simp

theorem setOriginality_apply_self (m : Nat → Option (Nat × Nat)) (aid pts q o : Nat)
    (h : m aid = some (q, o)) : setOriginality m aid pts aid = some (q, pts) := by
  unfold setOriginality
  rw [h]
  simp

theorem applyQualityRanking_not_mem (l : List Nat) (m : Nat → Option (Nat × Nat))
    (idx aid : Nat) (h : aid ∉ l) :
    applyQualityRanking m l idx aid = m aid := by
  induction l generalizing m idx with
  | nil => rfl
  | cons b rest ih =>
    have hb : aid ≠ b := fun e => h (e ▸ List.mem_cons_self b rest)
    have hrest : aid ∉ rest := fun hm => h (List.mem_cons_of_mem b hm)
    unfold applyQualityRanking
    rw [ih _ _ hrest]
    by_cases hidx : idx < pointsByRank.length
    · rw [if_pos hidx, setQuality_apply_ne _ _ _ _ hb]
    · rw [if_neg hidx]

theorem applyOriginalityRanking_not_mem (l : List Nat) (m : Nat → Option (Nat × Nat))
    (idx aid : Nat) (h : aid ∉ l) :
    applyOriginalityRanking m l idx aid = m aid := by
  induction l generalizing m idx with
  | nil => rfl
  | cons b rest ih =>
    have hb : aid ≠ b := fun e => h (e ▸ List.mem_cons_self b rest)
    have hrest : aid ∉ rest := fun hm => h (List.mem_cons_of_mem b hm)
    unfold applyOriginalityRanking
    rw [ih _ _ hrest]
    by_cases hidx : idx < pointsByRank.length
    · rw [if_pos hidx, setOriginality_apply_ne _ _ _ _ hb]
    · rw [if_neg hidx]

theorem applyQualityRanking_lookup (l : List Nat) (m : Nat → Option (Nat × Nat))
    (idx aid q o : Nat) (hl : l.Nodup) (h : m aid = some (q, o)) :
    applyQualityRanking m l idx aid = some
      ((match rankIndex l aid with
        | some j => if idx + j < 3 then pointsByRank.getD (idx + j) 0 else q
        | none => q), o) := by
  induction l generalizing m idx q with
  | nil => simpa [applyQualityRanking, rankIndex] using h
  | cons b rest ih =>
    rcases List.nodup_cons.mp hl with ⟨hb_notin, hrest_nd⟩
    by_cases hba : b = aid
    · subst hba
      have hnotin : b ∉ rest := hb_notin
      unfold applyQualityRanking
      by_cases hidx : idx < pointsByRank.length
      · rw [if_pos hidx,
          applyQualityRanking_not_mem rest _ _ _ hnotin,
          setQuality_apply_self _ _ _ _ _ h]
        have hidx3 : idx < 3 := hidx
        simp [rankIndex, hidx3]
      · rw [if_neg hidx, applyQualityRanking_not_mem rest _ _ _ hnotin, h]
        have hidx3 : ¬ idx < 3 := hidx
        simp [rankIndex, hidx3]
    · have hba' : aid ≠ b := fun e => hba e.symm
      unfold applyQualityRanking
      have hm' :
          (if idx < pointsByRank.length then setQuality m b (pointsByRank.getD idx 0) else m) aid
            = some (q, o) := by
        by_cases hidx : idx < pointsByRank.length
        · rw [if_pos hidx, setQuality_apply_ne _ _ _ _ hba']
          exact h
        · rw [if_neg hidx]
          exact h
      rw [ih _ _ _ hrest_nd hm']
      have hrb : rankIndex (b :: rest) aid = (rankIndex rest aid).map (· + 1) := by
        simp [rankIndex, hba]
      rw [hrb]
      cases hri : rankIndex rest aid with
      | none => simp
      | some j =>
        have harith : idx + 1 + j = idx + (j + 1) := by omega
        simp [harith]

theorem applyOriginalityRanking_lookup (l : List Nat) (m : Nat → Option (Nat × Nat))
    (idx aid q o : Nat) (hl : l.Nodup) (h : m aid = some (q, o)) :
    applyOriginalityRanking m l idx aid = some
      (q, (match rankIndex l aid with
        | some j => if idx + j < 3 then pointsByRank.getD (idx + j) 0 else o
        | none => o)) := by
  induction l generalizing m idx o with
  | nil => simpa [applyOriginalityRanking, rankIndex] using h
  | cons b rest ih =>
    rcases List.nodup_cons.mp hl with ⟨hb_notin, hrest_nd⟩
    by_cases hba : b = aid
    · subst hba
      have hnotin : b ∉ rest := hb_notin
      unfold applyOriginalityRanking
      by_cases hidx : idx < pointsByRank.length
      · rw [if_pos hidx,
          applyOriginalityRanking_not_mem rest _ _ _ hnotin,
          setOriginality_apply_self _ _ _ _ _ h]
        have hidx3 : idx < 3 := hidx
        simp [rankIndex, hidx3]
      · rw [if_neg hidx, applyOriginalityRanking_not_mem rest _ _ _ hnotin, h]
        have hidx3 : ¬ idx < 3 := hidx
        simp [rankIndex, hidx3]
    · have hba' : aid ≠ b := fun e => hba e.symm
      unfold applyOriginalityRanking
      have hm' :
          (if idx < pointsByRank.length then setOriginality m b (pointsByRank.getD idx 0) else m)
              aid = some (q, o) := by
        by_cases hidx : idx < pointsByRank.length
        · rw [if_pos hidx, setOriginality_apply_ne _ _ _ _ hba']
          exact h
        · rw [if_neg hidx]
          exact h
      rw [ih _ _ _ hrest_nd hm']
      have hrb : rankIndex (b :: rest) aid = (rankIndex rest aid).map (· + 1) := by
        simp [rankIndex, hba]
      rw [hrb]
      cases hri : rankIndex rest aid with
      | none => simp
      | some j =>
        have harith : idx + 1 + j = idx + (j + 1) := by omega
        simp [harith]

theorem rankPoints_eq (r : Option Nat) :
    (match r with
      | some j => if 0 + j < 3 then pointsByRank.getD (0 + j) 0 else 0
      | none => 0)
    = (match r with | some 0 => 3 | some 1 => 2 | some 2 => 1 | _ => 0) := by
  rcases r with _ | j
  · rfl
  · rcases j with _ | _ | _ | j <;> simp [pointsByRank]

theorem initScoreMap_foldl (arts : List Artwork) (m : Nat → Option (Nat × Nat)) (aid : Nat) :
    (arts.foldl (fun m a => fun k => if k = a.id then some (0, 0) else m k) m) aid =
      if aid ∈ arts.map Artwork.id then some (0, 0) else m aid := by
  induction arts generalizing m with
  | nil => simp
  | cons a rest ih =>
    rw [List.foldl_cons, ih]
    by_cases hmem : aid ∈ rest.map Artwork.id
    · simp [hmem]
    · by_cases ha : aid = a.id
      · simp [hmem, ha]
      · simp [hmem, ha]

theorem initScoreMap_mem (arts : List Artwork) (aid : Nat)
    (h : aid ∈ arts.map Artwork.id) : initScoreMap arts aid = some (0, 0) := by
  unfold initScoreMap
  rw [initScoreMap_foldl, if_pos h]

/-! ### The deception-point count as a filter length -/

theorem foldl_count_eq (cond : Vote → Bool) (l : List Vote) :
    ∀ n : Nat, l.foldl (fun n v => if cond v then n + 1 else n) n = n + (l.filter cond).length := by
  induction l with
  | nil => intro n; simp
  | cons v rest ih =>
    intro n
    by_cases hc : cond v <;> simp [hc, ih, List.filter_cons]
    omega

theorem dodgerPointsCalc_eq_filter (g : Game) :
    dodgerPointsCalc g = (g.votes.filter (fun v => v.isYes &&
      ((g.artworks.find? (fun a => a.id == v.artworkId)).map Artwork.isDodger
        == some false))).length := by
  unfold dodgerPointsCalc
  have hfun : (fun (n : Nat) (v : Vote) =>
      match g.artworks.find? (fun a => a.id == v.artworkId) with
      | some votedArtwork => if v.isYes && !votedArtwork.isDodger then n + 1 else n
      | none => n)
      = fun (n : Nat) (v : Vote) =>
        if v.isYes && ((g.artworks.find? (fun a => a.id == v.artworkId)).map Artwork.isDodger
            == some false) then n + 1 else n := by
    funext n v
    cases hf : g.artworks.find? (fun a => a.id == v.artworkId) with
    | none => simp
    | some a => cases ha : a.isDodger <;> cases hv : v.isYes <;> simp [ha, hv]
  rw [hfun, foldl_count_eq]
  simp

/-! ### Claim theorems: the scoring formula (C2) -/

/-- Exact characterisation of `calculateScores`, shared by the scoring
claims: the per-player delta and the persisted per-artifact bonuses. -/
theorem calculateScores_eq (g : Game) (rk : Rankings) (da : Artwork)
    (hda : g.artworks.find? (fun a => a.isDodger) = some da)
    (hq : rk.qualityRanking.Nodup) (ho : rk.originalityRanking.Nodup) :
    (g.calculateScores rk).players = g.players.map (fun p =>
      { p with score := p.score
          + (if (g.votes.find? (fun v => v.voterId == p.id && v.artworkId == da.id)).map
                Vote.isYes = some true then 1 else 0)
          + (if p.role = PlayerRole.Dodger then
              (g.votes.filter (fun v => v.isYes &&
                ((g.artworks.find? (fun a => a.id == v.artworkId)).map Artwork.isDodger
                  == some false))).length
             else 0)
          + (match g.artworks.find? (fun a => a.playerId == p.id) with
             | some art =>
               (match rankIndex rk.qualityRanking art.id with
                | some 0 => 3 | some 1 => 2 | some 2 => 1 | _ => 0)
               + (match rankIndex rk.originalityRanking art.id with
                  | some 0 => 3 | some 1 => 2 | some 2 => 1 | _ => 0)
             | none => 0) })
    ∧ (g.calculateScores rk).artworks = g.artworks.map (fun a =>
      { a with
        qualityScore := some (match rankIndex rk.qualityRanking a.id with
          | some 0 => 3 | some 1 => 2 | some 2 => 1 | _ => 0)
        originalityScore := some (match rankIndex rk.originalityRanking a.id with
          | some 0 => 3 | some 1 => 2 | some 2 => 1 | _ => 0) }) := by
  have hm2 : ∀ aid, aid ∈ g.artworks.map Artwork.id →
      applyOriginalityRanking
        (applyQualityRanking (initScoreMap g.artworks) rk.qualityRanking 0)
        rk.originalityRanking 0 aid
      = some
        ((match rankIndex rk.qualityRanking aid with
          | some 0 => 3 | some 1 => 2 | some 2 => 1 | _ => 0),
         (match rankIndex rk.originalityRanking aid with
          | some 0 => 3 | some 1 => 2 | some 2 => 1 | _ => 0)) := by
    intro aid hmem
    have h0 := initScoreMap_mem g.artworks aid hmem
    have h1 := applyQualityRanking_lookup rk.qualityRanking (initScoreMap g.artworks)
      0 aid 0 0 hq h0
    have h2 := applyOriginalityRanking_lookup rk.originalityRanking _ 0 aid _ 0 ho h1
    rw [h2, rankPoints_eq, rankPoints_eq]
  simp only [Game.calculateScores, hda]
  constructor
  · apply List.map_congr_left
    intro p hp
    have hscore : (let correctVote :=
          (g.votes.find? (fun v => v.voterId == p.id && v.artworkId == da.id)).map Vote.isYes
        let s1 := if correctVote = some true then p.score + 1 else p.score
        let s2 := if p.role == PlayerRole.Dodger then s1 + dodgerPointsCalc g else s1
        match g.artworks.find? (fun a => a.playerId == p.id) with
        | some art =>
          match applyOriginalityRanking
              (applyQualityRanking (initScoreMap g.artworks) rk.qualityRanking 0)
              rk.originalityRanking 0 art.id with
          | some qo => s2 + qo.1 + qo.2
          | none => s2
        | none => s2)
        = p.score
          + (if (g.votes.find? (fun v => v.voterId == p.id && v.artworkId == da.id)).map
                Vote.isYes = some true then 1 else 0)
          + (if p.role = PlayerRole.Dodger then
              (g.votes.filter (fun v => v.isYes &&
                ((g.artworks.find? (fun a => a.id == v.artworkId)).map Artwork.isDodger
                  == some false))).length
             else 0)
          + (match g.artworks.find? (fun a => a.playerId == p.id) with
             | some art =>
               (match rankIndex rk.qualityRanking art.id with
                | some 0 => 3 | some 1 => 2 | some 2 => 1 | _ => 0)
               + (match rankIndex rk.originalityRanking art.id with
                  | some 0 => 3 | some 1 => 2 | some 2 => 1 | _ => 0)
             | none => 0) := by
      rw [← dodgerPointsCalc_eq_filter]
      cases hfa : g.artworks.find? (fun a => a.playerId == p.id) with
      | none =>
        dsimp only
        simp only [beq_iff_eq]
        by_cases h1 : (g.votes.find? (fun v => v.voterId == p.id && v.artworkId == da.id)).map
            Vote.isYes = some true
          <;> by_cases h2 : p.role = PlayerRole.Dodger
          <;> simp [h1, h2]
      | some art =>
        have hartmem : art.id ∈ g.artworks.map Artwork.id :=
          List.mem_map.mpr ⟨art, List.mem_of_find?_eq_some hfa, rfl⟩
        dsimp only
        rw [hm2 art.id hartmem]
        dsimp only
        generalize (match rankIndex rk.qualityRanking art.id with
          | some 0 => 3 | some 1 => 2 | some 2 => 1 | _ => 0) = Q
        generalize (match rankIndex rk.originalityRanking art.id with
          | some 0 => 3 | some 1 => 2 | some 2 => 1 | _ => 0) = O
        simp only [beq_iff_eq]
        by_cases h1 : (g.votes.find? (fun v => v.voterId == p.id && v.artworkId == da.id)).map
            Vote.isYes = some true
          <;> by_cases h2 : p.role = PlayerRole.Dodger
          <;> simp [h1, h2]
          <;> ring
    rw [hscore]
  · apply List.map_congr_left
    intro a ha
    have hamem : a.id ∈ g.artworks.map Artwork.id := List.mem_map.mpr ⟨a, ha, rfl⟩
    rw [hm2 a.id hamem]

/-- C2: the scoring pass adds to each player's cumulative score exactly the
detection point (1 if they cast an approving vote on the deviator's
artifact), plus — for the deviator — the deception count (number of
approving votes on non-deviator artifacts), plus the 3/2/1 quality-rank and
3/2/1 originality-rank bonuses earned by their own authored artifact; and
it persists each artifact's two bonuses on the artifact record.  The
rankings are assumed duplicate-free (they are orderings of the artifact
ids), and a deviator artifact is assumed to exist (otherwise the pass is
skipped, per the spec). -/
theorem scoring_pass_formula (g : Game) (rk : Rankings) (da : Artwork)
    (hda : g.artworks.find? (fun a => a.isDodger) = some da)
    (hq : rk.qualityRanking.Nodup) (ho : rk.originalityRanking.Nodup) :
    (g.calculateScores rk).players = g.players.map (fun p =>
      { p with score := p.score
          + (if (g.votes.find? (fun v => v.voterId == p.id && v.artworkId == da.id)).map
                Vote.isYes = some true then 1 else 0)
          + (if p.role = PlayerRole.Dodger then
              (g.votes.filter (fun v => v.isYes &&
                ((g.artworks.find? (fun a => a.id == v.artworkId)).map Artwork.isDodger
                  == some false))).length
             else 0)
          + (match g.artworks.find? (fun a => a.playerId == p.id) with
             | some art =>
               (match rankIndex rk.qualityRanking art.id with
                | some 0 => 3 | some 1 => 2 | some 2 => 1 | _ => 0)
               + (match rankIndex rk.originalityRanking art.id with
                  | some 0 => 3 | some 1 => 2 | some 2 => 1 | _ => 0)
             | none => 0) })
    ∧ (g.calculateScores rk).artworks = g.artworks.map (fun a =>
      { a with
        qualityScore := some (match rankIndex rk.qualityRanking a.id with
          | some 0 => 3 | some 1 => 2 | some 2 => 1 | _ => 0)
        originalityScore := some (match rankIndex rk.originalityRanking a.id with
          | some 0 => 3 | some 1 => 2 | some 2 => 1 | _ => 0) }) :=
  calculateScores_eq g rk da hda hq ho

theorem scoring_pass_formula_witness :
    (fullRound2Game.calculateScores ⟨[1, 2], [1, 2]⟩).players.map Player.score = [9, 5] ∧
    (fullRound2Game.calculateScores ⟨[1, 2], [1, 2]⟩).artworks.map Artwork.qualityScore
      = [some 3, some 2] := by
  have h := scoring_pass_formula fullRound2Game ⟨[1, 2], [1, 2]⟩
    ⟨1, "A", "p1", none, true, none, none⟩ (by decide) (by decide) (by decide)
  rw [h.1, h.2]
  decide

/-! ### Claim theorems: the per-round score delta bound (C7, corrected) -/

theorem rankPoints_le_three (r : Option Nat) :
    (match r with | some 0 => 3 | some 1 => 2 | some 2 => 1 | _ => 0) ≤ 3 := by
  rcases r with _ | j
  · decide
  · rcases j with _ | _ | _ | j
    · decide
    · decide
    · decide
    · exact Nat.zero_le 3

theorem dodgerPointsCalc_le (g : Game)
    (hkeys : (g.votes.map (fun v => (v.voterId, v.artworkId))).Nodup)
    (hvoters : ∀ v ∈ g.votes, v.voterId ∈ g.players.map Player.id) :
    dodgerPointsCalc g ≤
      g.players.length * (g.artworks.filter (fun a => !a.isDodger)).length := by
  rw [dodgerPointsCalc_eq_filter]
  have hsubl :
      ((g.votes.filter (fun v => v.isYes &&
          ((g.artworks.find? (fun a => a.id == v.artworkId)).map Artwork.isDodger
            == some false))).map (fun v => (v.voterId, v.artworkId))).Sublist
        (g.votes.map (fun v => (v.voterId, v.artworkId))) :=
    (List.filter_sublist g.votes).map _
  have hnd := List.Nodup.sublist hsubl hkeys
  have hmem : ∀ x ∈ (g.votes.filter (fun v => v.isYes &&
        ((g.artworks.find? (fun a => a.id == v.artworkId)).map Artwork.isDodger
          == some false))).map (fun v => (v.voterId, v.artworkId)),
      x ∈ ((g.players.map Player.id).toFinset ×ˢ
        ((g.artworks.filter (fun a => !a.isDodger)).map Artwork.id).toFinset :
          Finset (String × Nat)) := by
    intro x hx
    rcases List.mem_map.mp hx with ⟨v, hv, hxv⟩
    rcases List.mem_filter.mp hv with ⟨hvmem, hvcond⟩
    subst hxv
    rw [Finset.mem_product]
    refine ⟨List.mem_toFinset.mpr (hvoters v hvmem), ?_⟩
    cases hf : g.artworks.find? (fun a => a.id == v.artworkId) with
    | none => rw [hf] at hvcond; simp at hvcond
    | some a =>
      rw [hf] at hvcond
      simp at hvcond
      have hamem := List.mem_of_find?_eq_some hf
      have haid : a.id = v.artworkId := by
        have := List.find?_some hf
        simpa using this
      refine List.mem_toFinset.mpr (List.mem_map.mpr
        ⟨a, List.mem_filter.mpr ⟨hamem, ?_⟩, haid⟩)
      simp [hvcond.2]
  calc (g.votes.filter (fun v => v.isYes &&
          ((g.artworks.find? (fun a => a.id == v.artworkId)).map Artwork.isDodger
            == some false))).length
      = ((g.votes.filter (fun v => v.isYes &&
          ((g.artworks.find? (fun a => a.id == v.artworkId)).map Artwork.isDodger
            == some false))).map (fun v => (v.voterId, v.artworkId))).length := by
        rw [List.length_map]
    _ = ((g.votes.filter (fun v => v.isYes &&
          ((g.artworks.find? (fun a => a.id == v.artworkId)).map Artwork.isDodger
            == some false))).map (fun v => (v.voterId, v.artworkId))).toFinset.card :=
        (List.toFinset_card_of_nodup hnd).symm
    _ ≤ ((g.players.map Player.id).toFinset ×ˢ
          ((g.artworks.filter (fun a => !a.isDodger)).map Artwork.id).toFinset).card :=
        Finset.card_le_card (fun x hx => hmem x (List.mem_toFinset.mp hx))
    _ = (g.players.map Player.id).toFinset.card *
          ((g.artworks.filter (fun a => !a.isDodger)).map Artwork.id).toFinset.card :=
        Finset.card_product _ _
    _ ≤ (g.players.map Player.id).length *
          ((g.artworks.filter (fun a => !a.isDodger)).map Artwork.id).length :=
        Nat.mul_le_mul (List.toFinset_card_le _) (List.toFinset_card_le _)
    _ = g.players.length * (g.artworks.filter (fun a => !a.isDodger)).length := by
        rw [List.length_map, List.length_map]

/-- Counterexample to C7 as stated: in a completed two-player round every
player may approve every artifact, so the deception count reaches
N·(N−1) = 2, not N−1 = 1.  The deviator's delta is 1 + 2 + 3 + 3 = 9,
exceeding the claimed bound 1 + (N−1) + 3 + 3 = 8. -/
theorem round_delta_bound_cex :
    (fullRound2Game.calculateScores ⟨[1, 2], [1, 2]⟩).players.map Player.score = [9, 5] ∧
    fullRound2Game.players.map Player.score = [0, 0] ∧
    fullRound2Game.players.length = 2 ∧
    ¬ (9 : Nat) ≤ 0 + 1 + (2 - 1) + 3 + 3 := by
  decide

/-- C7 (amended): with a duplicate-free vote ledger cast by roster members,
one artifact per player, exactly one deviator artifact and duplicate-free
rankings, each player's delta from the scoring pass is at most 1
(detection) plus — for the deviator — N·(N−1) deception points (each of
the N players can approve each of the N−1 non-deviator artifacts once),
plus 3 + 3 rank bonuses. -/
theorem round_delta_bounded (g : Game) (rk : Rankings)
    (hkeys : (g.votes.map (fun v => (v.voterId, v.artworkId))).Nodup)
    (hvoters : ∀ v ∈ g.votes, v.voterId ∈ g.players.map Player.id)
    (hlen : g.artworks.length = g.players.length)
    (hdod : g.artworks.countP (fun a => a.isDodger) = 1)
    (hq : rk.qualityRanking.Nodup) (ho : rk.originalityRanking.Nodup) :
    List.Forall₂
      (fun p q => q.score ≤ p.score + 1
        + (if p.role = PlayerRole.Dodger then
            g.players.length * (g.players.length - 1) else 0)
        + 3 + 3)
      g.players (g.calculateScores rk).players := by
  have hex : ∃ a ∈ g.artworks, a.isDodger = true := by
    have hpos : 0 < g.artworks.countP (fun a => a.isDodger) := by omega
    exact List.countP_pos.mp hpos
  have hsome : (g.artworks.find? (fun a => a.isDodger)).isSome = true :=
    List.find?_isSome.mpr hex
  rcases Option.isSome_iff_exists.mp hsome with ⟨da, hda⟩
  have hndlen : (g.artworks.filter (fun a => !a.isDodger)).length = g.players.length - 1 := by
    have h1 : g.artworks.countP (fun a => !a.isDodger)
        = (g.artworks.filter (fun a => !a.isDodger)).length :=
      List.countP_eq_length_filter _ _
    have h2 := List.length_eq_countP_add_countP (fun a : Artwork => a.isDodger) g.artworks
    have h3 : g.artworks.countP (fun a => decide ¬ (a.isDodger = true))
        = g.artworks.countP (fun a => !a.isDodger) := by
      apply List.countP_congr
      intro a _
      cases a.isDodger <;> simp
    omega
  have hdp : (g.votes.filter (fun v => v.isYes &&
        ((g.artworks.find? (fun a => a.id == v.artworkId)).map Artwork.isDodger
          == some false))).length
      ≤ g.players.length * (g.players.length - 1) := by
    have h := dodgerPointsCalc_le g hkeys hvoters
    rw [hndlen, dodgerPointsCalc_eq_filter] at h
    exact h
  rw [(calculateScores_eq g rk da hda hq ho).1, List.forall₂_map_right_iff,
    List.forall₂_same]
  intro p hp
  dsimp only
  have h1 : (if (g.votes.find? (fun v => v.voterId == p.id && v.artworkId == da.id)).map
      Vote.isYes = some true then 1 else 0) ≤ 1 := by
    split <;> decide
  have h2 : (if p.role = PlayerRole.Dodger then
        (g.votes.filter (fun v => v.isYes &&
          ((g.artworks.find? (fun a => a.id == v.artworkId)).map Artwork.isDodger
            == some false))).length
       else 0)
      ≤ (if p.role = PlayerRole.Dodger then
          g.players.length * (g.players.length - 1) else 0) := by
    split
    · exact hdp
    · exact Nat.le_refl 0
  have h3 : (match g.artworks.find? (fun a => a.playerId == p.id) with
      | some art =>
        (match rankIndex rk.qualityRanking art.id with
         | some 0 => 3 | some 1 => 2 | some 2 => 1 | _ => 0)
        + (match rankIndex rk.originalityRanking art.id with
           | some 0 => 3 | some 1 => 2 | some 2 => 1 | _ => 0)
      | none => 0) ≤ 3 + 3 := by
    cases g.artworks.find? (fun a => a.playerId == p.id) with
    | none => exact Nat.zero_le 6
    | some art =>
      exact Nat.add_le_add (rankPoints_le_three _) (rankPoints_le_three _)
  calc p.score
        + (if (g.votes.find? (fun v => v.voterId == p.id && v.artworkId == da.id)).map
            Vote.isYes = some true then 1 else 0)
        + (if p.role = PlayerRole.Dodger then
            (g.votes.filter (fun v => v.isYes &&
              ((g.artworks.find? (fun a => a.id == v.artworkId)).map Artwork.isDodger
                == some false))).length
           else 0)
        + (match g.artworks.find? (fun a => a.playerId == p.id) with
           | some art =>
             (match rankIndex rk.qualityRanking art.id with
              | some 0 => 3 | some 1 => 2 | some 2 => 1 | _ => 0)
             + (match rankIndex rk.originalityRanking art.id with
                | some 0 => 3 | some 1 => 2 | some 2 => 1 | _ => 0)
           | none => 0)
      ≤ p.score + 1
        + (if p.role = PlayerRole.Dodger then
            g.players.length * (g.players.length - 1) else 0)
        + (3 + 3) :=
        Nat.add_le_add (Nat.add_le_add (Nat.add_le_add (Nat.le_refl p.score) h1) h2) h3
    _ = p.score + 1
        + (if p.role = PlayerRole.Dodger then
            g.players.length * (g.players.length - 1) else 0)
        + 3 + 3 := by ring

/-- Witness for `round_delta_bounded` on the concrete completed two-player
round. -/
theorem round_delta_bounded_witness :
    List.Forall₂
      (fun p q => q.score ≤ p.score + 1
        + (if p.role = PlayerRole.Dodger then
            fullRound2Game.players.length * (fullRound2Game.players.length - 1) else 0)
        + 3 + 3)
      fullRound2Game.players ((fullRound2Game.calculateScores ⟨[1, 2], [1, 2]⟩).players) :=
  round_delta_bounded fullRound2Game ⟨[1, 2], [1, 2]⟩ (by decide) (by decide) (by decide)
    (by decide) (by decide) (by decide)

/-! ### List lemmas supporting the invariant proofs -/

theorem map_player_map_id (ps : List Player) (f : Player → Player)
    (hid : ∀ p, (f p).id = p.id) :
    (ps.map f).map Player.id = ps.map Player.id := by
  rw [List.map_map]
  exact List.map_congr_left (fun p _ => hid p)

theorem countP_player_map (ps : List Player) (f : Player → Player) (pred : Player → Bool)
    (h : ∀ p, pred (f p) = pred p) :
    (ps.map f).countP pred = ps.countP pred := by
  rw [List.countP_map]
  exact List.countP_congr (fun p _ => by rw [Function.comp_apply, h p])

theorem countP_artwork_map (arts : List Artwork) (f : Artwork → Artwork)
    (pred : Artwork → Bool) (h : ∀ a, pred (f a) = pred a) :
    (arts.map f).countP pred = arts.countP pred := by
  rw [List.countP_map]
  exact List.countP_congr (fun a _ => by rw [Function.comp_apply, h a])

theorem updateFirst_map_id (ps : List Player) (pid : String) (f : Player → Player)
    (hid : ∀ p, (f p).id = p.id) :
    (updateFirst ps pid f).map Player.id = ps.map Player.id := by
  induction ps with
  | nil => rfl
  | cons a rest ih =>
    cases ha : a.id == pid with
    | true => simp [updateFirst, ha, hid a]
    | false => simp [updateFirst, ha, ih]

theorem updateFirst_countP (ps : List Player) (pid : String) (f : Player → Player)
    (pred : Player → Bool) (h : ∀ p, pred (f p) = pred p) :
    (updateFirst ps pid f).countP pred = ps.countP pred := by
  induction ps with
  | nil => rfl
  | cons a rest ih =>
    cases ha : a.id == pid with
    | true => simp [updateFirst, ha, List.countP_cons, h a]
    | false => simp [updateFirst, ha, List.countP_cons, ih]

theorem updateFirst_eq_map (ps : List Player) (pid : String) (f : Player → Player)
    (hnd : (ps.map Player.id).Nodup) :
    updateFirst ps pid f = ps.map (fun q => if q.id == pid then f q else q) := by
  induction ps with
  | nil => rfl
  | cons a rest ih =>
    have hnd' : a.id ∉ rest.map Player.id ∧ (rest.map Player.id).Nodup :=
      List.nodup_cons.mp (by simpa using hnd)
    cases ha : a.id == pid with
    | true =>
      have hpid : a.id = pid := beq_iff_eq.mp ha
      have hrest : ∀ q ∈ rest, (if q.id == pid then f q else q) = q := by
        intro q hq
        have hne : q.id ≠ pid := by
          intro e
          apply hnd'.1
          have haq : a.id = q.id := hpid.trans e.symm
          rw [haq]
          exact List.mem_map.mpr ⟨q, hq, rfl⟩
        simp [hne]
      simp only [updateFirst, ha, if_true, List.map_cons, ha]
      rw [List.map_congr_left hrest]
      simp
    | false =>
      simp only [updateFirst, ha, Bool.false_eq_true, if_false, List.map_cons]
      rw [ih hnd'.2]

theorem zipWith_imageUrl_keys (arts : List Artwork) (imgs : List (Option String)) :
    ∀ b ∈ List.zipWith (fun a i => { a with imageUrl := i }) arts imgs,
      ∃ a ∈ arts, b.id = a.id ∧ b.playerId = a.playerId ∧ b.isDodger = a.isDodger := by
  induction arts generalizing imgs with
  | nil => intro b hb; simp at hb
  | cons a rest ih =>
    cases imgs with
    | nil => intro b hb; simp at hb
    | cons i irest =>
      intro b hb
      rcases List.mem_cons.mp hb with hb | hb
      · subst hb
        exact ⟨a, List.mem_cons_self a rest, rfl, rfl, rfl⟩
      · rcases ih irest b hb with ⟨a', ha', h⟩
        exact ⟨a', List.mem_cons_of_mem a ha', h⟩

theorem zipWith_imageUrl_keys_rev (arts : List Artwork) (imgs : List (Option String))
    (hlen : imgs.length = arts.length) :
    ∀ a ∈ arts, ∃ b ∈ List.zipWith (fun a i => { a with imageUrl := i }) arts imgs,
      b.id = a.id ∧ b.playerId = a.playerId ∧ b.isDodger = a.isDodger := by
  induction arts generalizing imgs with
  | nil => intro a ha; simp at ha
  | cons a rest ih =>
    cases imgs with
    | nil => simp at hlen
    | cons i irest =>
      intro a' ha'
      rcases List.mem_cons.mp ha' with ha' | ha'
      · subst ha'
        exact ⟨{ a' with imageUrl := i }, List.mem_cons_self _ _, rfl, rfl, rfl⟩
      · have hlen' : irest.length = rest.length := by simpa using hlen
        rcases ih irest hlen' a' ha' with ⟨b, hb, h⟩
        exact ⟨b, List.mem_cons_of_mem _ hb, h⟩

theorem zipWith_imageUrl_countP (arts : List Artwork) (imgs : List (Option String))
    (hlen : imgs.length = arts.length) :
    (List.zipWith (fun a i => { a with imageUrl := i }) arts imgs).countP
        (fun a => a.isDodger)
      = arts.countP (fun a => a.isDodger) := by
  induction arts generalizing imgs with
  | nil => simp
  | cons a rest ih =>
    cases imgs with
    | nil => simp at hlen
    | cons i irest =>
      have hlen' : irest.length = rest.length := by simpa using hlen
      simp [List.countP_cons, ih irest hlen']

theorem synthVotes_cons (aid : Nat) (p : Player) (rest : List Player) (vs : List Vote) :
    synthVotes aid (p :: rest) vs = synthVotes aid rest
      (if vs.any (fun v => v.voterId == p.id && v.artworkId == aid) then vs
       else vs ++ [⟨p.id, aid, false⟩]) := rfl

theorem synthVotes_eq (aid : Nat) (ps : List Player) (vs : List Vote)
    (hnd : (ps.map Player.id).Nodup) :
    synthVotes aid ps vs = vs ++
      (ps.filter (fun p =>
        !(vs.any (fun v => v.voterId == p.id && v.artworkId == aid)))).map
        (fun p => ⟨p.id, aid, false⟩) := by
  induction ps generalizing vs with
  | nil => simp [synthVotes]
  | cons p rest ih =>
    have hnd' : p.id ∉ rest.map Player.id ∧ (rest.map Player.id).Nodup :=
      List.nodup_cons.mp (by simpa using hnd)
    rw [synthVotes_cons]
    cases hvote : vs.any (fun v => v.voterId == p.id && v.artworkId == aid) with
    | true =>
      rw [if_pos rfl, ih vs hnd'.2]
      simp [List.filter_cons, hvote]
    | false =>
      rw [if_neg Bool.false_ne_true,
        ih (vs ++ [(⟨p.id, aid, false⟩ : Vote)]) hnd'.2]
      have hfil : rest.filter (fun q =>
            !((vs ++ [(⟨p.id, aid, false⟩ : Vote)]).any
              (fun v => v.voterId == q.id && v.artworkId == aid)))
          = rest.filter (fun q =>
            !(vs.any (fun v => v.voterId == q.id && v.artworkId == aid))) := by
        apply List.filter_congr
        intro q hq
        have hne : p.id ≠ q.id := by
          intro e
          exact hnd'.1 (e ▸ List.mem_map.mpr ⟨q, hq, rfl⟩)
        have hsp : ([(⟨p.id, aid, false⟩ : Vote)].any
            (fun v => v.voterId == q.id && v.artworkId == aid)) = false := by
          simp [hne]
        rw [List.any_append, hsp, Bool.or_false]
      rw [hfil]
      simp [List.filter_cons, hvote, List.append_assoc]

theorem set_same {α : Type} (l : List α) (i : Nat) (a : α) (h : l.get? i = some a) :
    l.set i a = l := by
  induction l generalizing i with
  | nil => simp at h
  | cons x rest ih =>
    cases i with
    | zero =>
      have : x = a := by simpa using h
      simp [List.set, this]
    | succ n =>
      have h' : rest.get? n = some a := by simpa using h
      simp [List.set, ih n h']

theorem two_countP (l : List Player) (pred : Player → Bool) (a b : Player)
    (ha : a ∈ l) (hb : b ∈ l) (hab : a ≠ b)
    (hpa : pred a = true) (hpb : pred b = true) : 2 ≤ l.countP pred := by
  have ha' : a ∈ l.filter pred := List.mem_filter.mpr ⟨ha, hpa⟩
  have hb' : b ∈ l.filter pred := List.mem_filter.mpr ⟨hb, hpb⟩
  rw [List.countP_eq_length_filter]
  rcases hfil : l.filter pred with _ | ⟨x, _ | ⟨y, t⟩⟩
  · rw [hfil] at ha'
    simp at ha'
  · rw [hfil] at ha' hb'
    simp at ha' hb'
    exact absurd (ha'.trans hb'.symm) hab
  · simp [hfil]

/-! ### Invariant: establishment and preservation -/

theorem inv_init (roomId : String) : Inv (Game.init roomId) := by
  refine ⟨?_, ?_, ?_, ?_, ?_, ?_, ?_, ?_⟩ <;> simp [Game.init]

theorem Inv.of_fields {g g' : Game} (inv : Inv g)
    (hp : g'.players = g.players) (hv : g'.votes = g.votes)
    (ha : g'.artworks = g.artworks) (hd : g'.dodgerId = g.dodgerId) : Inv g' := by
  refine ⟨?_, ?_, ?_, ?_, ?_, ?_, ?_, ?_⟩
  · rw [hp]; exact inv.idsNodup
  · rw [hv]; exact inv.votesNodup
  · rw [hv, ha]; exact inv.votesArt
  · rw [hp]; exact inv.dodgerPlayers
  · rw [hp, hd]; exact inv.dodgerRoleId
  · rw [ha]; exact inv.dodgerArts
  · rw [ha, hd]; exact inv.dodgerArtId
  · rw [ha, hp]; exact inv.dodgerSubmitted

theorem inv_addPlayer (g : Game) (id name : String)
    (hfresh : id ∉ g.players.map Player.id) (inv : Inv g) :
    Inv (g.addPlayer id name) := by
  unfold Game.addPlayer
  split
  · exact inv
  · refine ⟨?_, inv.votesNodup, inv.votesArt, ?_, ?_, inv.dodgerArts, inv.dodgerArtId, ?_⟩
    · rw [List.map_append]
      refine List.nodup_append.mpr ⟨inv.idsNodup, by simp, ?_⟩
      intro x hx hx2
      simp at hx2
      subst hx2
      exact hfresh hx
    · rw [List.countP_append]
      simpa using inv.dodgerPlayers
    · intro p hp hrole
      rcases List.mem_append.mp hp with hp | hp
      · exact inv.dodgerRoleId p hp hrole
      · simp at hp
        subst hp
        simp at hrole
    · intro hex p hp hrole
      rcases List.mem_append.mp hp with hp | hp
      · exact inv.dodgerSubmitted hex p hp hrole
      · simp at hp
        subst hp
        simp at hrole

theorem inv_removePlayer (g : Game) (id : String) (inv : Inv g) :
    Inv (g.removePlayer id) := by
  unfold Game.removePlayer
  refine ⟨?_, inv.votesNodup, inv.votesArt, ?_, ?_, inv.dodgerArts, inv.dodgerArtId, ?_⟩
  · exact List.Nodup.sublist ((List.filter_sublist _).map _) inv.idsNodup
  · exact Nat.le_trans (List.Sublist.countP_le _ (List.filter_sublist _)) inv.dodgerPlayers
  · intro p hp hrole
    exact inv.dodgerRoleId p (List.mem_of_mem_filter hp) hrole
  · intro hex p hp hrole
    exact inv.dodgerSubmitted hex p (List.mem_of_mem_filter hp) hrole

theorem inv_players_map (g : Game) (f : Player → Player)
    (hid : ∀ p, (f p).id = p.id) (hrole : ∀ p, (f p).role = p.role)
    (hsub : ∀ p, (f p).promptSubmitted = p.promptSubmitted) (inv : Inv g) :
    Inv { g with players := g.players.map f } := by
  refine ⟨?_, inv.votesNodup, inv.votesArt, ?_, ?_, inv.dodgerArts, inv.dodgerArtId, ?_⟩
  · rw [show ({ g with players := g.players.map f } : Game).players = g.players.map f from rfl,
      map_player_map_id _ _ hid]
    exact inv.idsNodup
  · rw [show ({ g with players := g.players.map f } : Game).players = g.players.map f from rfl,
      countP_player_map _ _ _ (fun p => by rw [hrole p])]
    exact inv.dodgerPlayers
  · intro p hp hr
    rcases List.mem_map.mp hp with ⟨q, hq, hfq⟩
    subst hfq
    rw [hid q]
    exact inv.dodgerRoleId q hq (by rw [← hrole q]; exact hr)
  · intro hex p hp hr
    rcases List.mem_map.mp hp with ⟨q, hq, hfq⟩
    subst hfq
    rw [hsub q]
    exact inv.dodgerSubmitted hex q hq (by rw [← hrole q]; exact hr)

theorem inv_startGame (g : Game) (inv : Inv g) : Inv g.startGame := by
  unfold Game.startGame
  split
  · exact Inv.of_fields (inv_players_map g (fun p => { p with score := 0 }) (fun _ => rfl) (fun _ => rfl) (fun _ => rfl) inv)
      rfl rfl rfl rfl
  · exact inv

theorem inv_resetGame (g : Game) (inv : Inv g) : Inv g.resetGame := by
  unfold Game.resetGame
  exact Inv.of_fields (inv_players_map g (fun p => { p with score := 0 }) (fun _ => rfl) (fun _ => rfl) (fun _ => rfl) inv)
    rfl rfl rfl rfl

theorem inv_handlePlayerReady (g : Game) (id : String) (inv : Inv g) :
    Inv (g.handlePlayerReady id) := by
  unfold Game.handlePlayerReady
  split
  · exact Inv.of_fields inv rfl rfl rfl rfl
  · exact Inv.of_fields inv rfl rfl rfl rfl

theorem inv_nextRound (g : Game) (inv : Inv g) : Inv g.nextRound := by
  unfold Game.nextRound
  split
  · split
    · exact Inv.of_fields inv rfl rfl rfl rfl
    · exact Inv.of_fields inv rfl rfl rfl rfl
  · exact inv

theorem nodup_map_id_set (ps : List Player) (i : Nat) (d d' : Player)
    (hget : ps.get? i = some d) (hid : d'.id = d.id)
    (hnd : (ps.map Player.id).Nodup) : ((ps.set i d').map Player.id).Nodup := by
  have hget2 : (ps.map Player.id).get? i = some d'.id := by
    rw [List.get?_map, hget, hid]
    rfl
  rw [List.map_set, set_same _ _ _ hget2]
  exact hnd

theorem countP_set_unique (ps : List Player) (i : Nat) (d' : Player) (pred : Player → Bool)
    (hlen : i < ps.length) (hzero : ps.countP pred = 0) (hd' : pred d' = true) :
    (ps.set i d').countP pred = 1 := by
  rw [List.countP_set _ _ _ _ hlen]
  have hfalse : pred ps[i] = false := by
    have hmem : ps[i] ∈ ps := List.getElem_mem hlen
    have hne := List.countP_eq_zero.mp hzero _ hmem
    cases hp : pred ps[i] with
    | false => rfl
    | true => exact absurd hp hne
  rw [hzero, hfalse, hd']
  simp

theorem inv_resolveRoundStart (g g' : Game) (rd : RoundData) (i : Nat)
    (h : g.resolveRoundStart rd i = some g') (inv : Inv g) : Inv g' := by
  unfold Game.resolveRoundStart at h
  rcases hget : (g.players.map
      (fun p => { p with role := PlayerRole.Artist, promptSubmitted := false })).get? i
    with _ | d
  · rw [hget] at h
    simp at h
  · rw [hget] at h
    injection h with hX
    subst hX
    rcases List.get?_eq_some.mp hget with ⟨hlen, _⟩
    refine ⟨?_, by simp, by simp, ?_, ?_, by simp, by simp, ?_⟩
    · have hnd0 : ((g.players.map
          (fun p => { p with role := PlayerRole.Artist, promptSubmitted := false })).map
            Player.id).Nodup := by
        rw [map_player_map_id g.players
          (fun p => { p with role := PlayerRole.Artist, promptSubmitted := false })
          (fun _ => rfl)]
        exact inv.idsNodup
      exact nodup_map_id_set _ _ _ _ hget rfl hnd0
    · have hzero : (g.players.map
          (fun p => { p with role := PlayerRole.Artist, promptSubmitted := false })).countP
            (fun p => p.role == PlayerRole.Dodger) = 0 := by
        refine List.countP_eq_zero.mpr (fun p hp => ?_)
        rcases List.mem_map.mp hp with ⟨q, _, hq⟩
        rw [← hq]
        simp
      rw [countP_set_unique _ i { d with role := PlayerRole.Dodger } _ hlen hzero rfl]
    · intro p hp hrole
      rcases List.mem_or_eq_of_mem_set hp with hp | hp
      · rcases List.mem_map.mp hp with ⟨q, _, hq⟩
        rw [← hq] at hrole
        simp at hrole
      · subst hp
        rfl
    · intro hex
      simp at hex

theorem updateFirst_mem (ps : List Player) (pid : String) (f : Player → Player) :
    ∀ p ∈ updateFirst ps pid f, ∃ q ∈ ps, p = q ∨ p = f q := by
  induction ps with
  | nil => intro p hp; simp [updateFirst] at hp
  | cons a rest ih =>
    intro p hp
    cases ha : a.id == pid with
    | true =>
      rw [updateFirst, if_pos ha] at hp
      rcases List.mem_cons.mp hp with hp | hp
      · exact ⟨a, List.mem_cons_self a rest, Or.inr hp⟩
      · exact ⟨p, List.mem_cons_of_mem a hp, Or.inl rfl⟩
    | false =>
      rw [updateFirst, if_neg (by rw [ha]; exact Bool.false_ne_true)] at hp
      rcases List.mem_cons.mp hp with hp | hp
      · exact ⟨a, List.mem_cons_self a rest, Or.inl hp⟩
      · rcases ih p hp with ⟨q, hq, hor⟩
        exact ⟨q, List.mem_cons_of_mem a hq, hor⟩

theorem inv_submitPrompt (g : Game) (pid prompt : String) (inv : Inv g) :
    Inv (g.handlePromptSubmission pid prompt) := by
  cases hfind : g.players.find? (fun p => p.id == pid) with
  | none =>
    have hng : g.handlePromptSubmission pid prompt = g := by
      simp only [Game.handlePromptSubmission, hfind]
    rw [hng]
    exact inv
  | some player =>
    cases hsubm : player.promptSubmitted with
    | true =>
      rw [handlePromptSubmission_noop g pid prompt player hfind hsubm]
      exact inv
    | false =>
      have hmem : player ∈ g.players := List.mem_of_find?_eq_some hfind
      have hpid : player.id = pid := by
        have := List.find?_some hfind
        simpa using this
      have hinv1 : Inv ({ g with
          players := updateFirst g.players pid (fun q => { q with promptSubmitted := true })
          artworks := g.artworks ++
            [{ id := g.artworks.length + 1, playerId := pid, prompt := prompt,
               imageUrl := none, isDodger := player.role == PlayerRole.Dodger }] } : Game) := by
        refine ⟨?_, inv.votesNodup, ?_, ?_, ?_, ?_, ?_, ?_⟩
        · show ((updateFirst g.players pid
              (fun q => { q with promptSubmitted := true })).map Player.id).Nodup
          rw [updateFirst_map_id g.players pid
            (fun q => { q with promptSubmitted := true }) (fun _ => rfl)]
          exact inv.idsNodup
        · intro v hv
          rcases inv.votesArt v hv with ⟨a, ha, haid⟩
          exact ⟨a, List.mem_append_left _ ha, haid⟩
        · show (updateFirst g.players pid
              (fun q => { q with promptSubmitted := true })).countP
                (fun p => p.role == PlayerRole.Dodger) ≤ 1
          rw [updateFirst_countP g.players pid
            (fun q => { q with promptSubmitted := true })
            (fun p => p.role == PlayerRole.Dodger) (fun q => rfl)]
          exact inv.dodgerPlayers
        · intro p hp hrole
          rcases updateFirst_mem _ _ _ p hp with ⟨q, hq, hor⟩
          have hprole : q.role = PlayerRole.Dodger := by
            rcases hor with h | h <;> rw [h] at hrole <;> exact hrole
          have hqid : p.id = q.id := by
            rcases hor with h | h <;> rw [h]
          rw [hqid]
          exact inv.dodgerRoleId q hq hprole
        · rw [List.countP_append]
          cases hrole : player.role == PlayerRole.Dodger with
          | false => simpa using inv.dodgerArts
          | true =>
            have hdodger0 : g.artworks.countP (fun a => a.isDodger) = 0 := by
              refine List.countP_eq_zero.mpr (fun a ha => ?_)
              intro hpa
              have hflag := inv.dodgerSubmitted ⟨a, ha, hpa⟩ player hmem (beq_iff_eq.mp hrole)
              rw [hsubm] at hflag
              exact Bool.false_ne_true hflag
            rw [hdodger0]
            simp
        · intro a ha hdod
          rcases List.mem_append.mp ha with ha | ha
          · exact inv.dodgerArtId a ha hdod
          · simp only [List.mem_singleton] at ha
            subst ha
            have hrole : player.role = PlayerRole.Dodger :=
              beq_iff_eq.mp (show (player.role == PlayerRole.Dodger) = true from hdod)
            have hdid := inv.dodgerRoleId player hmem hrole
            rw [hdid, hpid]
        · intro hex p hp hrole2
          rw [updateFirst_eq_map _ _ _ inv.idsNodup] at hp
          rcases List.mem_map.mp hp with ⟨q, hq, hfq⟩
          subst hfq
          cases hqid : q.id == pid with
          | true =>
            simp only [hqid, if_true] at hrole2 ⊢
          | false =>
            simp only [hqid, Bool.false_eq_true, if_false] at hrole2 ⊢
            rcases hex with ⟨a, ha, hdod⟩
            rcases List.mem_append.mp ha with ha | ha
            · exact inv.dodgerSubmitted ⟨a, ha, hdod⟩ q hq hrole2
            · simp only [List.mem_singleton] at ha
              subst ha
              have hrolep : player.role = PlayerRole.Dodger :=
                beq_iff_eq.mp (show (player.role == PlayerRole.Dodger) = true from hdod)
              have hqne : q ≠ player := by
                intro e
                rw [e, hpid] at hqid
                simp at hqid
              have h2 := two_countP g.players (fun p => p.role == PlayerRole.Dodger) q player
                hq hmem hqne (by simp [hrole2]) (by simp [hrolep])
              have h1 := inv.dodgerPlayers
              omega
      simp only [Game.handlePromptSubmission, hfind, hsubm, Bool.false_eq_true, if_false]
      split
      · exact Inv.of_fields hinv1 rfl rfl rfl rfl
      · exact hinv1

theorem inv_resolveGeneration (g : Game) (imgs : List (Option String)) (arts : List Artwork)
    (hlen : imgs.length = g.artworks.length)
    (hperm : arts.Perm (List.zipWith (fun a i => { a with imageUrl := i }) g.artworks imgs))
    (inv : Inv g) : Inv (g.resolveGeneration arts) := by
  unfold Game.resolveGeneration
  refine ⟨inv.idsNodup, inv.votesNodup, ?_, inv.dodgerPlayers, inv.dodgerRoleId, ?_, ?_, ?_⟩
  · intro v hv
    rcases inv.votesArt v hv with ⟨a, ha, haid⟩
    rcases zipWith_imageUrl_keys_rev g.artworks imgs hlen a ha with ⟨b, hb, hbid, _, _⟩
    exact ⟨b, hperm.mem_iff.mpr hb, by rw [hbid, haid]⟩
  · show arts.countP (fun a => a.isDodger) ≤ 1
    rw [hperm.countP_eq, zipWith_imageUrl_countP g.artworks imgs hlen]
    exact inv.dodgerArts
  · intro b hb hdod
    rcases zipWith_imageUrl_keys g.artworks imgs b (hperm.mem_iff.mp hb) with
      ⟨a, ha, _, hbp, hbd⟩
    rw [hbp]
    exact inv.dodgerArtId a ha (by rw [← hbd]; exact hdod)
  · intro hex p hp hrole
    rcases hex with ⟨b, hb, hdod⟩
    rcases zipWith_imageUrl_keys g.artworks imgs b (hperm.mem_iff.mp hb) with
      ⟨a, ha, _, _, hbd⟩
    exact inv.dodgerSubmitted ⟨a, ha, by rw [← hbd]; exact hdod⟩ p hp hrole

theorem inv_votes_synth (g : Game) (art : Artwork)
    (hart : art ∈ g.artworks) (inv : Inv g) :
    Inv { g with votes := synthVotes art.id g.players g.votes } := by
  refine ⟨inv.idsNodup, ?_, ?_, inv.dodgerPlayers, inv.dodgerRoleId, inv.dodgerArts,
    inv.dodgerArtId, inv.dodgerSubmitted⟩
  · show ((synthVotes art.id g.players g.votes).map
        (fun v => (v.voterId, v.artworkId))).Nodup
    rw [synthVotes_eq _ _ _ inv.idsNodup, List.map_append]
    refine List.nodup_append.mpr ⟨inv.votesNodup, ?_, ?_⟩
    · rw [List.map_map]
      have heq : ((fun v : Vote => (v.voterId, v.artworkId)) ∘
            (fun p : Player => (⟨p.id, art.id, false⟩ : Vote)))
          = (fun i : String => (i, art.id)) ∘ Player.id := rfl
      rw [heq, ← List.map_map]
      refine List.Nodup.map ?_ ?_
      · intro x y hxy
        exact congrArg Prod.fst hxy
      · exact List.Nodup.sublist ((List.filter_sublist _).map _) inv.idsNodup
    · intro x hx1 hx2
      rcases List.mem_map.mp hx1 with ⟨v, hv, hkey⟩
      rcases List.mem_map.mp hx2 with ⟨sv, hsv, hkey2⟩
      rcases List.mem_map.mp hsv with ⟨q, hq, hsynth⟩
      rcases List.mem_filter.mp hq with ⟨_, hcond⟩
      have h3 : (v.voterId, v.artworkId) = (q.id, art.id) := by
        rw [show ((v.voterId, v.artworkId) : String × Nat) = x from hkey, ← hkey2, ← hsynth]
      have hvq : v.voterId = q.id ∧ v.artworkId = art.id :=
        ⟨congrArg Prod.fst h3, congrArg Prod.snd h3⟩
      have hany : g.votes.any (fun v => v.voterId == q.id && v.artworkId == art.id) = true :=
        List.any_eq_true.mpr ⟨v, hv, by simp [hvq.1, hvq.2]⟩
      rw [hany] at hcond
      simp at hcond
  · intro v hv
    rw [show v ∈ ({ g with votes := synthVotes art.id g.players g.votes } : Game).votes
        ↔ v ∈ synthVotes art.id g.players g.votes from Iff.rfl,
      synthVotes_eq _ _ _ inv.idsNodup] at hv
    rcases List.mem_append.mp hv with hv | hv
    · exact inv.votesArt v hv
    · rcases List.mem_map.mp hv with ⟨q, _, hq⟩
      exact ⟨art, hart, by rw [← hq]⟩

theorem inv_nextGalleryItem (g g' : Game) (h : g.nextGalleryItem = some g') (inv : Inv g) :
    Inv g' := by
  unfold Game.nextGalleryItem at h
  rcases hget : g.artworks.get? g.galleryIndex with _ | art
  · rw [hget] at h
    simp at h
  · rw [hget] at h
    dsimp only at h
    have hinv2 : Inv { g with votes := synthVotes art.id g.players g.votes } :=
      inv_votes_synth g art (List.get?_mem hget) inv
    split at h
    · injection h with hX
      subst hX
      exact Inv.of_fields hinv2 rfl rfl rfl rfl
    · injection h with hX
      subst hX
      exact Inv.of_fields hinv2 rfl rfl rfl rfl

theorem inv_handleVote (g g' : Game) (vid : String) (isYes : Bool)
    (h : g.handleVote vid isYes = some g') (inv : Inv g) : Inv g' := by
  unfold Game.handleVote at h
  rcases hget : g.artworks.get? g.galleryIndex with _ | art
  · rw [hget] at h
    simp at h
  · rw [hget] at h
    dsimp only at h
    by_cases hdup : (g.votes.any (fun v => v.voterId == vid && v.artworkId == art.id)) = true
    · rw [if_pos hdup] at h
      injection h with hX
      subst hX
      exact inv
    · rw [if_neg hdup] at h
      have hinvG1 : Inv ({ g with votes := g.votes ++ [⟨vid, art.id, isYes⟩] } : Game) := by
        refine ⟨inv.idsNodup, ?_, ?_, inv.dodgerPlayers, inv.dodgerRoleId, inv.dodgerArts,
          inv.dodgerArtId, inv.dodgerSubmitted⟩
        · show ((g.votes ++ [(⟨vid, art.id, isYes⟩ : Vote)]).map
              (fun v => (v.voterId, v.artworkId))).Nodup
          rw [List.map_append]
          refine List.nodup_append.mpr ⟨inv.votesNodup, by simp, ?_⟩
          intro x hx1 hx2
          simp only [List.map_cons, List.map_nil, List.mem_singleton] at hx2
          subst hx2
          rcases List.mem_map.mp hx1 with ⟨v, hv, hkey⟩
          have hv1 : v.voterId = vid := congrArg Prod.fst hkey
          have hv2 : v.artworkId = art.id := congrArg Prod.snd hkey
          exact hdup (List.any_eq_true.mpr ⟨v, hv, by simp [hv1, hv2]⟩)
        · intro v hv
          rcases List.mem_append.mp hv with hv | hv
          · exact inv.votesArt v hv
          · simp only [List.mem_singleton] at hv
            subst hv
            exact ⟨art, List.get?_mem hget, rfl⟩
      split at h
      · exact inv_nextGalleryItem _ _ h (Inv.of_fields hinvG1 rfl rfl rfl rfl)
      · injection h with hX
        subst hX
        exact hinvG1

theorem inv_galleryTick (g g' : Game) (h : g.galleryTick = some g') (inv : Inv g) :
    Inv g' := by
  unfold Game.galleryTick at h
  dsimp only at h
  split at h
  · exact inv_nextGalleryItem _ _ h (Inv.of_fields inv rfl rfl rfl rfl)
  · injection h with hX
    subst hX
    exact Inv.of_fields inv rfl rfl rfl rfl

theorem calculateScores_shape (g : Game) (rk : Rankings) :
    g.calculateScores rk = g ∨
    ∃ (P : Player → Player) (F : Artwork → Artwork),
      g.calculateScores rk =
        { g with players := g.players.map P, artworks := g.artworks.map F } ∧
      (∀ p, (P p).id = p.id) ∧ (∀ p, (P p).role = p.role) ∧
      (∀ p, (P p).promptSubmitted = p.promptSubmitted) ∧
      (∀ a, (F a).id = a.id) ∧ (∀ a, (F a).playerId = a.playerId) ∧
      (∀ a, (F a).isDodger = a.isDodger) := by
  unfold Game.calculateScores
  cases hda : g.artworks.find? (fun a => a.isDodger) with
  | none => exact Or.inl rfl
  | some da =>
    dsimp only
    refine Or.inr ⟨_, _, rfl, fun p => rfl, fun p => rfl, fun p => rfl,
      fun a => ?_, fun a => ?_, fun a => ?_⟩
      <;> cases applyOriginalityRanking
          (applyQualityRanking (initScoreMap g.artworks) rk.qualityRanking 0)
          rk.originalityRanking 0 a.id
      <;> rfl

theorem inv_calculateScores (g : Game) (rk : Rankings) (inv : Inv g) :
    Inv (g.calculateScores rk) := by
  rcases calculateScores_shape g rk with heq | ⟨P, F, heq, hPid, hProle, hPsub, hFid, hFpl, hFdod⟩
  · rw [heq]
    exact inv
  · rw [heq]
    refine ⟨?_, inv.votesNodup, ?_, ?_, ?_, ?_, ?_, ?_⟩
    · show ((g.players.map P).map Player.id).Nodup
      rw [map_player_map_id g.players P hPid]
      exact inv.idsNodup
    · intro v hv
      rcases inv.votesArt v hv with ⟨a, ha, haid⟩
      exact ⟨F a, List.mem_map.mpr ⟨a, ha, rfl⟩, by rw [hFid a, haid]⟩
    · show (g.players.map P).countP (fun p => p.role == PlayerRole.Dodger) ≤ 1
      rw [countP_player_map g.players P
        (fun p => p.role == PlayerRole.Dodger) (fun p => by simp only [hProle p])]
      exact inv.dodgerPlayers
    · intro p hp hrole
      rcases List.mem_map.mp hp with ⟨q, hq, hfq⟩
      subst hfq
      rw [hPid q]
      exact inv.dodgerRoleId q hq (by rw [← hProle q]; exact hrole)
    · show (g.artworks.map F).countP (fun a => a.isDodger) ≤ 1
      rw [countP_artwork_map g.artworks F
        (fun a => a.isDodger) (fun a => by simp only [hFdod a])]
      exact inv.dodgerArts
    · intro b hb hdod
      rcases List.mem_map.mp hb with ⟨a, ha, hfa⟩
      subst hfa
      rw [hFpl a]
      exact inv.dodgerArtId a ha (by rw [← hFdod a]; exact hdod)
    · intro hex p hp hrole
      rcases hex with ⟨b, hb, hdod⟩
      rcases List.mem_map.mp hb with ⟨a, ha, hfa⟩
      rcases List.mem_map.mp hp with ⟨q, hq, hfq⟩
      subst hfq
      rw [hPsub q]
      refine inv.dodgerSubmitted ⟨a, ha, ?_⟩ q hq (by rw [← hProle q]; exact hrole)
      rw [← hFdod a, hfa]
      exact hdod

theorem inv_resolveEvaluation (g : Game) (rk : Rankings) (inv : Inv g) :
    Inv (g.resolveEvaluation rk) := by
  unfold Game.resolveEvaluation
  exact Inv.of_fields (inv_calculateScores g rk inv) rfl rfl rfl rfl

theorem inv_step (g g' : Game) (hs : Step g g') (inv : Inv g) : Inv g' := by
  induction hs with
  | addPlayer id name hfresh => exact inv_addPlayer _ id name hfresh inv
  | removePlayer id => exact inv_removePlayer _ id inv
  | startGame => exact inv_startGame _ inv
  | resetGame => exact inv_resetGame _ inv
  | resolveRoundStart g2 rd i hstate h => exact inv_resolveRoundStart _ g2 rd i h inv
  | playerReady id => exact inv_handlePlayerReady _ id inv
  | submitPrompt id prompt => exact inv_submitPrompt _ id prompt inv
  | resolveGeneration imgs arts hstate hlen hperm =>
    exact inv_resolveGeneration _ imgs arts hlen hperm inv
  | castVote g2 id isYes h => exact inv_handleVote _ g2 id isYes h inv
  | galleryTick g2 h => exact inv_galleryTick _ g2 h inv
  | resolveEvaluation rk hstate hrd => exact inv_resolveEvaluation _ rk inv
  | nextRound => exact inv_nextRound _ inv

theorem reach_inv (g : Game) (h : Reach g) : Inv g := by
  induction h with
  | init roomId => exact inv_init roomId
  | step g g' hg hs ih => exact inv_step g g' hs ih

/-! ### Reachability of the demonstration run -/

theorem reach_gDemo2 : Reach gDemo2 := by
  show Reach (((Game.init "DEMO").addPlayer "A" "Alice").addPlayer "B" "Bob")
  exact Reach.step _ _
    (Reach.step _ _ (Reach.init "DEMO") (Step.addPlayer _ "A" "Alice" (by decide)))
    (Step.addPlayer _ "B" "Bob" (by decide))

theorem reach_gDemo3 : Reach gDemo3 :=
  Reach.step _ _ reach_gDemo2 (Step.startGame gDemo2)

theorem reach_gDemo4 : Reach gDemo4 :=
  Reach.step _ _ reach_gDemo3
    (Step.resolveRoundStart gDemo3 gDemo4 fallbackRoundData 0 (by decide) (by decide))

theorem reach_gDemo6 : Reach gDemo6 :=
  Reach.step _ _ (Reach.step _ _ reach_gDemo4 (Step.playerReady gDemo4 "A"))
    (Step.playerReady (gDemo4.handlePlayerReady "A") "B")

theorem reach_gDemo8 : Reach gDemo8 :=
  Reach.step _ _
    (Reach.step _ _ reach_gDemo6 (Step.submitPrompt gDemo6 "A" "a dragon"))
    (Step.submitPrompt (gDemo6.handlePromptSubmission "A" "a dragon") "B" "a cat")

theorem reach_gDemo9 : Reach gDemo9 := by
  show Reach (gDemo8.resolveGeneration
    (List.zipWith (fun a i => { a with imageUrl := i }) gDemo8.artworks
      [some "img1", none]))
  exact Reach.step _ _ reach_gDemo8
    (Step.resolveGeneration gDemo8 [some "img1", none]
      (List.zipWith (fun a i => { a with imageUrl := i }) gDemo8.artworks
        [some "img1", none])
      (by decide) (by decide) (List.Perm.refl _))

theorem reach_gDemo10 : Reach gDemo10 :=
  Reach.step _ _ reach_gDemo9 (Step.castVote gDemo9 gDemo10 "A" true (by decide))

/-! ### Counting helpers for the vote ledger and the roles -/

theorem countP_key_le_one {α β : Type} [BEq β] [LawfulBEq β] (key : α → β)
    (l : List α) (hnd : (l.map key).Nodup) (k : β) :
    l.countP (fun a => key a == k) ≤ 1 := by
  induction l with
  | nil => simp
  | cons a rest ih =>
    rw [List.map_cons, List.nodup_cons] at hnd
    rw [List.countP_cons]
    cases hk : (key a == k) with
    | false => simpa using ih hnd.2
    | true =>
      have hzero : rest.countP (fun b => key b == k) = 0 := by
        refine List.countP_eq_zero.mpr (fun b hb hkb => ?_)
        have h1 : key b ∈ rest.map key := List.mem_map.mpr ⟨b, hb, rfl⟩
        rw [eq_of_beq hkb, ← eq_of_beq hk] at h1
        exact hnd.1 h1
      rw [hzero]
      simp

theorem votes_countP_key_le_one (vs : List Vote)
    (hnd : (vs.map (fun v => (v.voterId, v.artworkId))).Nodup)
    (voter : String) (aid : Nat) :
    vs.countP (fun v => v.voterId == voter && v.artworkId == aid) ≤ 1 := by
  induction vs with
  | nil => simp
  | cons v rest ih =>
    rw [List.map_cons, List.nodup_cons] at hnd
    rw [List.countP_cons]
    cases hk : (v.voterId == voter && v.artworkId == aid) with
    | false => simpa using ih hnd.2
    | true =>
      rw [Bool.and_eq_true] at hk
      rcases hk with ⟨h1, h2⟩
      have hzero : rest.countP (fun u => u.voterId == voter && u.artworkId == aid) = 0 := by
        refine List.countP_eq_zero.mpr (fun u hu hku => ?_)
        have hku2 : (u.voterId == voter) = true ∧ (u.artworkId == aid) = true := by
          rw [← Bool.and_eq_true]
          exact hku
        rcases hku2 with ⟨h3, h4⟩
        have hm : (u.voterId, u.artworkId) ∈
            rest.map (fun w => (w.voterId, w.artworkId)) :=
          List.mem_map.mpr ⟨u, hu, rfl⟩
        rw [eq_of_beq h3, eq_of_beq h4, ← eq_of_beq h1, ← eq_of_beq h2] at hm
        exact hnd.1 hm
      rw [hzero]
      simp

/-- After the synthesis loop at the top of `nextGalleryItem`, every current
player holds exactly one vote on the displayed artwork, provided the roster
ids are duplicate-free and the player held at most one vote before. -/
theorem synthVotes_player_count (aid : Nat) (ps : List Player) (vs : List Vote)
    (hnd : (ps.map Player.id).Nodup) (p : Player) (hp : p ∈ ps)
    (hle : vs.countP (fun v => v.voterId == p.id && v.artworkId == aid) ≤ 1) :
    (synthVotes aid ps vs).countP
      (fun v => v.voterId == p.id && v.artworkId == aid) = 1 := by
  rw [synthVotes_eq aid ps vs hnd, List.countP_append]
  have hmap : ((ps.filter (fun q =>
        !(vs.any (fun v => v.voterId == q.id && v.artworkId == aid)))).map
        (fun q => (⟨q.id, aid, false⟩ : Vote))).countP
        (fun v => v.voterId == p.id && v.artworkId == aid)
      = (ps.filter (fun q =>
        !(vs.any (fun v => v.voterId == q.id && v.artworkId == aid)))).countP
        (fun q => q.id == p.id) := by
    rw [List.countP_map]
    refine List.countP_congr (fun q _ => ?_)
    simp [Function.comp]
  rw [hmap]
  cases hvote : vs.any (fun v => v.voterId == p.id && v.artworkId == aid) with
  | true =>
    have h1 : vs.countP (fun v => v.voterId == p.id && v.artworkId == aid) = 1 := by
      rcases List.any_eq_true.mp hvote with ⟨v, hv, hpv⟩
      have hpos : 0 < vs.countP (fun v => v.voterId == p.id && v.artworkId == aid) :=
        List.countP_pos.mpr ⟨v, hv, hpv⟩
      omega
    have h2 : (ps.filter (fun q =>
        !(vs.any (fun v => v.voterId == q.id && v.artworkId == aid)))).countP
        (fun q => q.id == p.id) = 0 := by
      refine List.countP_eq_zero.mpr (fun q hq hqp => ?_)
      rcases List.mem_filter.mp hq with ⟨_, hcond⟩
      rw [show q.id = p.id from eq_of_beq hqp, hvote] at hcond
      simp at hcond
    rw [h1, h2]
  | false =>
    have h1 : vs.countP (fun v => v.voterId == p.id && v.artworkId == aid) = 0 := by
      refine List.countP_eq_zero.mpr (fun v hv hpv => ?_)
      have hh : vs.any (fun v => v.voterId == p.id && v.artworkId == aid) = true :=
        List.any_eq_true.mpr ⟨v, hv, hpv⟩
      rw [hvote] at hh
      exact Bool.false_ne_true hh
    have hmemf : p ∈ ps.filter (fun q =>
        !(vs.any (fun v => v.voterId == q.id && v.artworkId == aid))) := by
      refine List.mem_filter.mpr ⟨hp, ?_⟩
      rw [hvote]
      rfl
    have hnd2 : ((ps.filter (fun q =>
        !(vs.any (fun v => v.voterId == q.id && v.artworkId == aid)))).map
        Player.id).Nodup :=
      List.Nodup.sublist ((List.filter_sublist _).map _) hnd
    have hle2 := countP_key_le_one Player.id (ps.filter (fun q =>
        !(vs.any (fun v => v.voterId == q.id && v.artworkId == aid)))) hnd2 p.id
    have hpos : 0 < (ps.filter (fun q =>
        !(vs.any (fun v => v.voterId == q.id && v.artworkId == aid)))).countP
        (fun q => q.id == p.id) :=
      List.countP_pos.mpr ⟨p, hmemf, by simp⟩
    rw [h1]
    omega

/-- Combined ledger postcondition of the synthesis loop: exactly one vote
per current player on the displayed artwork, and when the player cast no
explicit vote, that one vote is the synthesized default "no". -/
theorem synthVotes_ledger (aid : Nat) (ps : List Player) (vs : List Vote)
    (hnd : (ps.map Player.id).Nodup) (p : Player) (hp : p ∈ ps)
    (hle : vs.countP (fun v => v.voterId == p.id && v.artworkId == aid) ≤ 1) :
    (synthVotes aid ps vs).countP
      (fun v => v.voterId == p.id && v.artworkId == aid) = 1 ∧
    (vs.any (fun v => v.voterId == p.id && v.artworkId == aid) = false →
      (synthVotes aid ps vs).filter
        (fun v => v.voterId == p.id && v.artworkId == aid) = [⟨p.id, aid, false⟩]) := by
  have hcnt := synthVotes_player_count aid ps vs hnd p hp hle
  refine ⟨hcnt, fun hnone => ?_⟩
  have hlen1 : ((synthVotes aid ps vs).filter
      (fun v => v.voterId == p.id && v.artworkId == aid)).length = 1 := by
    rw [← List.countP_eq_length_filter]
    exact hcnt
  have hmem : (⟨p.id, aid, false⟩ : Vote) ∈ (synthVotes aid ps vs).filter
      (fun v => v.voterId == p.id && v.artworkId == aid) := by
    refine List.mem_filter.mpr ⟨?_, by simp⟩
    rw [synthVotes_eq aid ps vs hnd]
    refine List.mem_append.mpr (Or.inr ?_)
    refine List.mem_map.mpr ⟨p, List.mem_filter.mpr ⟨hp, ?_⟩, rfl⟩
    rw [hnone]
    rfl
  rcases List.length_eq_one.mp hlen1 with ⟨y, hy⟩
  rw [hy] at hmem ⊢
  simp only [List.mem_singleton] at hmem
  rw [← hmem]

/-- When every current player already has an explicit vote on the displayed
artwork, the synthesis loop adds nothing. -/
theorem synthVotes_all_voted (aid : Nat) (ps : List Player) (vs : List Vote)
    (hall : ∀ p ∈ ps, vs.any
      (fun v => v.voterId == p.id && v.artworkId == aid) = true) :
    synthVotes aid ps vs = vs := by
  induction ps with
  | nil => rfl
  | cons p rest ih =>
    rw [synthVotes_cons, if_pos (hall p (List.mem_cons_self p rest))]
    exact ih (fun q hq => hall q (List.mem_cons_of_mem p hq))

theorem artist_beq_artist : (PlayerRole.Artist == PlayerRole.Artist) = true := rfl

theorem dodger_beq_artist : (PlayerRole.Dodger == PlayerRole.Artist) = false := rfl

theorem artist_beq_dodger : (PlayerRole.Artist == PlayerRole.Dodger) = false := rfl

theorem dodger_beq_dodger : (PlayerRole.Dodger == PlayerRole.Dodger) = true := rfl

/-- Every player is an Artist or a Dodger, so the two role counts sum to
the roster size. -/
theorem countP_role_split (l : List Player) :
    l.countP (fun p => p.role == PlayerRole.Artist)
      + l.countP (fun p => p.role == PlayerRole.Dodger) = l.length := by
  induction l with
  | nil => rfl
  | cons p rest ih =>
    cases hr : p.role <;>
      simp [List.countP_cons, hr, artist_beq_artist, dodger_beq_artist,
        artist_beq_dodger, dodger_beq_dodger] <;>
      omega

/-! ### Claim theorems: the vote ledger (C3) -/

/-- C3: on every reachable session state each (voter, artifact) pair
appears at most once in the votes ledger; and whenever the gallery cursor
advances past the displayed artifact — directly through `nextGalleryItem`,
through a gallery-timer tick reaching zero, or through `handleVote`
receiving a vote while the tally with the incoming vote appended is
unanimous — every player then in the roster ends up with exactly one vote
on that artifact: their explicit one if they cast it (for the vote trigger
the explicit ledger includes the just-cast vote), otherwise a synthesized
`isYes := false` default. -/
theorem vote_ledger_unique_and_complete (g : Game) (hreach : Reach g) :
    (∀ voter aid, g.votes.countP
        (fun v => v.voterId == voter && v.artworkId == aid) ≤ 1) ∧
    (∀ g' art, g.artworks.get? g.galleryIndex = some art →
      g.nextGalleryItem = some g' → ∀ p ∈ g.players,
        g'.votes.countP (fun v => v.voterId == p.id && v.artworkId == art.id) = 1 ∧
        (g.votes.any (fun v => v.voterId == p.id && v.artworkId == art.id) = false →
          g'.votes.filter (fun v => v.voterId == p.id && v.artworkId == art.id)
            = [⟨p.id, art.id, false⟩])) ∧
    (∀ g' art, g.artworks.get? g.galleryIndex = some art →
      g.galleryTime - 1 ≤ 0 → g.galleryTick = some g' → ∀ p ∈ g.players,
        g'.votes.countP (fun v => v.voterId == p.id && v.artworkId == art.id) = 1 ∧
        (g.votes.any (fun v => v.voterId == p.id && v.artworkId == art.id) = false →
          g'.votes.filter (fun v => v.voterId == p.id && v.artworkId == art.id)
            = [⟨p.id, art.id, false⟩])) ∧
    (∀ (g' : Game) (art : Artwork) (vid : String) (isYes : Bool),
      g.artworks.get? g.galleryIndex = some art →
      g.players.all (fun p => (g.votes ++ [(⟨vid, art.id, isYes⟩ : Vote)]).any
        (fun v => v.voterId == p.id && v.artworkId == art.id)) = true →
      g.handleVote vid isYes = some g' → ∀ p ∈ g.players,
        g'.votes.countP (fun v => v.voterId == p.id && v.artworkId == art.id) = 1 ∧
        ((g.votes ++ [(⟨vid, art.id, isYes⟩ : Vote)]).any
            (fun v => v.voterId == p.id && v.artworkId == art.id) = false →
          g'.votes.filter (fun v => v.voterId == p.id && v.artworkId == art.id)
            = [⟨p.id, art.id, false⟩])) := by
  have inv := reach_inv g hreach
  refine ⟨?_, ?_, ?_, ?_⟩
  · intro voter aid
    exact votes_countP_key_le_one g.votes inv.votesNodup voter aid
  · intro g' art hget hnext p hp
    have hvotes : g'.votes = synthVotes art.id g.players g.votes := by
      unfold Game.nextGalleryItem at hnext
      rw [hget] at hnext
      dsimp only at hnext
      split at hnext
      · injection hnext with hX
        subst hX
        rfl
      · injection hnext with hX
        subst hX
        rfl
    have hle : g.votes.countP
        (fun v => v.voterId == p.id && v.artworkId == art.id) ≤ 1 :=
      votes_countP_key_le_one g.votes inv.votesNodup p.id art.id
    rw [hvotes]
    exact synthVotes_ledger art.id g.players g.votes inv.idsNodup p hp hle
  · intro g' art hget htime htick p hp
    have hvotes : g'.votes = synthVotes art.id g.players g.votes := by
      unfold Game.galleryTick at htick
      dsimp only at htick
      rw [if_pos htime] at htick
      unfold Game.nextGalleryItem at htick
      dsimp only at htick
      rw [hget] at htick
      dsimp only at htick
      split at htick
      · injection htick with hX
        subst hX
        rfl
      · injection htick with hX
        subst hX
        rfl
    have hle : g.votes.countP
        (fun v => v.voterId == p.id && v.artworkId == art.id) ≤ 1 :=
      votes_countP_key_le_one g.votes inv.votesNodup p.id art.id
    rw [hvotes]
    exact synthVotes_ledger art.id g.players g.votes inv.idsNodup p hp hle
  · intro g' art vid isYes hget hall h p hp
    unfold Game.handleVote at h
    rw [hget] at h
    dsimp only at h
    by_cases hdup : g.votes.any
        (fun v => v.voterId == vid && v.artworkId == art.id) = true
    · rw [if_pos hdup] at h
      injection h with hX
      subst hX
      have hall2 : ∀ q ∈ g.players, g.votes.any
          (fun v => v.voterId == q.id && v.artworkId == art.id) = true := by
        intro q hq
        have hq2 : (g.votes ++ [(⟨vid, art.id, isYes⟩ : Vote)]).any
            (fun v => v.voterId == q.id && v.artworkId == art.id) = true :=
          List.all_eq_true.mp hall q hq
        rcases List.any_eq_true.mp hq2 with ⟨v, hv, hkv⟩
        rcases List.mem_append.mp hv with hv2 | hv2
        · exact List.any_eq_true.mpr ⟨v, hv2, hkv⟩
        · simp only [List.mem_singleton] at hv2
          subst hv2
          rw [Bool.and_eq_true] at hkv
          have hvq : vid = q.id := eq_of_beq hkv.1
          rw [← hvq]
          exact hdup
      have hle0 : g.votes.countP
          (fun v => v.voterId == p.id && v.artworkId == art.id) ≤ 1 :=
        votes_countP_key_le_one g.votes inv.votesNodup p.id art.id
      have hcore := synthVotes_ledger art.id g.players g.votes inv.idsNodup p hp hle0
      rw [synthVotes_all_voted art.id g.players g.votes hall2] at hcore
      refine ⟨hcore.1, fun hnone => ?_⟩
      have hexp : (g.votes ++ [(⟨vid, art.id, isYes⟩ : Vote)]).any
          (fun v => v.voterId == p.id && v.artworkId == art.id) = true :=
        List.all_eq_true.mp hall p hp
      rw [hnone] at hexp
      exact Bool.noConfusion hexp
    · rw [if_neg hdup] at h
      rw [if_pos hall] at h
      have hnd1 : ((g.votes ++ [(⟨vid, art.id, isYes⟩ : Vote)]).map
          (fun v => (v.voterId, v.artworkId))).Nodup := by
        rw [List.map_append]
        refine List.nodup_append.mpr ⟨inv.votesNodup, by simp, ?_⟩
        intro x hx1 hx2
        simp only [List.map_cons, List.map_nil, List.mem_singleton] at hx2
        subst hx2
        rcases List.mem_map.mp hx1 with ⟨v, hv, hkey⟩
        have hv1 : v.voterId = vid := congrArg Prod.fst hkey
        have hv2 : v.artworkId = art.id := congrArg Prod.snd hkey
        exact hdup (List.any_eq_true.mpr ⟨v, hv, by simp [hv1, hv2]⟩)
      have hvotes : g'.votes = synthVotes art.id g.players
          (g.votes ++ [⟨vid, art.id, isYes⟩]) := by
        unfold Game.nextGalleryItem at h
        dsimp only at h
        rw [hget] at h
        dsimp only at h
        split at h
        · injection h with hX
          subst hX
          rfl
        · injection h with hX
          subst hX
          rfl
      have hle1 : (g.votes ++ [(⟨vid, art.id, isYes⟩ : Vote)]).countP
          (fun v => v.voterId == p.id && v.artworkId == art.id) ≤ 1 :=
        votes_countP_key_le_one _ hnd1 p.id art.id
      rw [hvotes]
      exact synthVotes_ledger art.id g.players
        (g.votes ++ [⟨vid, art.id, isYes⟩]) inv.idsNodup p hp hle1

/-- Witness for C3 on the demonstration run, exercising both advance
triggers from the same state: `nextGalleryItem` past the first artifact
synthesizes a "no" for "B" who never voted, while "B" casting the final
approving vote advances through `handleVote` leaving exactly one vote per
player. -/
theorem vote_ledger_unique_and_complete_witness :
    gDemo10.votes.countP (fun v => v.voterId == "A" && v.artworkId == 1) ≤ 1 ∧
    gDemo11.votes.countP (fun v =>
      v.voterId == (⟨"B", "Bob", PlayerRole.Artist, 0, true⟩ : Player).id &&
        v.artworkId == gDemo10Art.id) = 1 ∧
    gDemo11.votes.filter (fun v =>
      v.voterId == (⟨"B", "Bob", PlayerRole.Artist, 0, true⟩ : Player).id &&
        v.artworkId == gDemo10Art.id) = [⟨"B", gDemo10Art.id, false⟩] ∧
    gDemo11v.votes.countP (fun v =>
      v.voterId == (⟨"A", "Alice", PlayerRole.Dodger, 0, true⟩ : Player).id &&
        v.artworkId == gDemo10Art.id) = 1 := by
  have h := vote_ledger_unique_and_complete gDemo10 reach_gDemo10
  have h2 := h.2.1 gDemo11 gDemo10Art (by decide) (by decide)
    (⟨"B", "Bob", PlayerRole.Artist, 0, true⟩ : Player) (by decide)
  have h4 := h.2.2.2 gDemo11v gDemo10Art "B" true (by decide) (by decide) (by decide)
    (⟨"A", "Alice", PlayerRole.Dodger, 0, true⟩ : Player) (by decide)
  exact ⟨h.1 "A" 1, h2.1, h2.2 (by decide), h4.1⟩

/-! ### Claim theorems: the deviator role and flag (C4) -/

/-- C4 counterexample: the spec's unconditional "exactly one player holds
the deviating role while play is active" fails — the deviator can
disconnect mid-round, leaving a reachable active-play state (here the
`BRIEFING` phase) with a non-empty roster and no Dodger at all. -/
theorem deviator_can_vanish_mid_round :
    ∃ g : Game, Reach g ∧ g.state = GameState.BRIEFING ∧ g.players ≠ [] ∧
      g.players.countP (fun p => p.role == PlayerRole.Dodger) = 0 :=
  ⟨gDemo4.removePlayer "A",
    Reach.step _ _ reach_gDemo4 (Step.removePlayer gDemo4 "A"),
    by decide, by decide, by decide⟩

/-- C4: on every reachable state at most one current player holds the
Dodger role, at most one artifact carries the deviator flag, and both are
tied to the stored `dodgerId` (so the flagged artifact's author is the
deviator's id); a successful round start reassigns the role exactly — the
refreshed roster keeps its size, holds exactly one Dodger, all other
players are Artists, the artifact list is cleared, and every Dodger entry
matches the stored id with a cleared submission flag. -/
theorem single_deviator_assignment (g : Game) (hreach : Reach g) :
    (g.players.countP (fun p => p.role == PlayerRole.Dodger) ≤ 1 ∧
      g.artworks.countP (fun a => a.isDodger) ≤ 1 ∧
      (∀ p ∈ g.players, p.role = PlayerRole.Dodger → g.dodgerId = some p.id) ∧
      (∀ a ∈ g.artworks, a.isDodger = true → g.dodgerId = some a.playerId)) ∧
    ∀ rd i g', g.resolveRoundStart rd i = some g' →
      g'.players.length = g.players.length ∧
      g'.players.countP (fun p => p.role == PlayerRole.Dodger) = 1 ∧
      g'.players.countP (fun p => p.role == PlayerRole.Artist) + 1
        = g'.players.length ∧
      g'.artworks = [] ∧
      ∀ p ∈ g'.players, p.role = PlayerRole.Dodger →
        g'.dodgerId = some p.id ∧ p.promptSubmitted = false := by
  have inv := reach_inv g hreach
  refine ⟨⟨inv.dodgerPlayers, inv.dodgerArts, inv.dodgerRoleId, inv.dodgerArtId⟩, ?_⟩
  intro rd i g' h
  have inv2 := inv_resolveRoundStart g g' rd i h inv
  unfold Game.resolveRoundStart at h
  rcases hget : (g.players.map
      (fun p => { p with role := PlayerRole.Artist, promptSubmitted := false })).get? i
    with _ | d
  · rw [hget] at h
    simp at h
  · rw [hget] at h
    injection h with hX
    subst hX
    rcases List.get?_eq_some.mp hget with ⟨hlen, _⟩
    have hDone : ((g.players.map
        (fun p => { p with role := PlayerRole.Artist, promptSubmitted := false })).set i
        { d with role := PlayerRole.Dodger }).countP
        (fun p => p.role == PlayerRole.Dodger) = 1 := by
      have hzero : (g.players.map
          (fun p => { p with role := PlayerRole.Artist, promptSubmitted := false })).countP
          (fun p => p.role == PlayerRole.Dodger) = 0 := by
        refine List.countP_eq_zero.mpr (fun p hp => ?_)
        rcases List.mem_map.mp hp with ⟨q, _, hq⟩
        rw [← hq]
        simp
      exact countP_set_unique _ i { d with role := PlayerRole.Dodger } _ hlen hzero rfl
    refine ⟨?_, hDone, ?_, rfl, ?_⟩
    · show ((g.players.map
          (fun p => { p with role := PlayerRole.Artist, promptSubmitted := false })).set i
          { d with role := PlayerRole.Dodger }).length = g.players.length
      rw [List.length_set, List.length_map]
    · show ((g.players.map
          (fun p => { p with role := PlayerRole.Artist, promptSubmitted := false })).set i
          { d with role := PlayerRole.Dodger }).countP
          (fun p => p.role == PlayerRole.Artist) + 1
        = ((g.players.map
          (fun p => { p with role := PlayerRole.Artist, promptSubmitted := false })).set i
          { d with role := PlayerRole.Dodger }).length
      have hsplit := countP_role_split ((g.players.map
          (fun p => { p with role := PlayerRole.Artist, promptSubmitted := false })).set i
          { d with role := PlayerRole.Dodger })
      omega
    · intro p hp hrole
      refine ⟨inv2.dodgerRoleId p hp hrole, ?_⟩
      rcases List.mem_or_eq_of_mem_set hp with hp2 | hp2
      · rcases List.mem_map.mp hp2 with ⟨q, _, hq⟩
        rw [← hq]
      · subst hp2
        show d.promptSubmitted = false
        rcases List.mem_map.mp (List.get?_mem hget) with ⟨q, _, hq⟩
        rw [← hq]

/-- Witness for C4 on the demonstration run: the first round start of a
two-player room assigns exactly one Dodger and one Artist. -/
theorem single_deviator_assignment_witness :
    gDemo4.players.countP (fun p => p.role == PlayerRole.Dodger) = 1 ∧
    gDemo4.players.countP (fun p => p.role == PlayerRole.Artist) + 1
      = gDemo4.players.length := by
  have h := (single_deviator_assignment gDemo3 reach_gDemo3).2
    fallbackRoundData 0 gDemo4 (by decide)
  exact ⟨h.2.1, h.2.2.1⟩

/-! ### Claim theorems: serialized round points vs the scoring pass (C10) -/

/-- C10 counterexample: on a raw session state holding an approving vote
whose target artifact is absent, the serialized `roundPoints` (where the JS
`!undefined` of a missed find is `true`) counts the vote, while the scoring
pass's deception loop skips it — the two formulas disagree as functions of
the raw state. -/
theorem roundpoints_disagree_on_dangling_vote :
    danglingVoteGame.getSerializableState.roundPoints = 1 ∧
    dodgerPointsCalc danglingVoteGame = 0 :=
  ⟨by decide, by decide⟩

/-- C10: on every reachable session state the `roundPoints` field of the
serialized outward snapshot equals the deception-point count computed by
the scoring pass — the reachability invariant (every vote's target artifact
exists) reconciles the two formulas, which differ on raw states with
dangling votes. -/
theorem roundpoints_matches_scoring (g : Game) (hreach : Reach g) :
    g.getSerializableState.roundPoints = dodgerPointsCalc g := by
  have inv := reach_inv g hreach
  have hfil : g.votes.filter (fun v => v.isYes &&
        !(((g.artworks.find? (fun a => a.id == v.artworkId)).map Artwork.isDodger).getD
          false))
      = g.votes.filter (fun v => v.isYes &&
        ((g.artworks.find? (fun a => a.id == v.artworkId)).map Artwork.isDodger
          == some false)) := by
    refine List.filter_congr (fun v hv => ?_)
    rcases inv.votesArt v hv with ⟨a, ha, haid⟩
    have hsome : (g.artworks.find? (fun b => b.id == v.artworkId)).isSome := by
      rw [List.find?_isSome]
      exact ⟨a, ha, by simp [haid]⟩
    rcases Option.isSome_iff_exists.mp hsome with ⟨b, hb⟩
    rw [hb]
    simp only [Option.map_some', Option.getD_some]
    cases hd : b.isDodger <;> cases hy : v.isYes <;> decide
  show (g.votes.filter (fun v => v.isYes &&
      !(((g.artworks.find? (fun a => a.id == v.artworkId)).map Artwork.isDodger).getD
        false))).length = dodgerPointsCalc g
  rw [dodgerPointsCalc_eq_filter, hfil]

/-- Witness for C10 on the concrete demonstration state after the first
gallery vote. -/
theorem roundpoints_matches_scoring_witness :
    gDemo10.getSerializableState.roundPoints = dodgerPointsCalc gDemo10 :=
  roundpoints_matches_scoring gDemo10 reach_gDemo10

end HiddenMotif
